import Mathlib

/-!
# Hunt-Crossley contact force (Simbody)

A shallow embedding of `src/src/HuntCrossleyForce.cpp`.

Modelling conventions.

* `Real` is a type `R` carrying a linearly ordered field structure: arithmetic is exact, so
  rounding, infinities and NaN are outside the model.  Every definition is computable and can be
  evaluated at `R := ℚ`.
* `std::sqrt` and the `MobilizedBody` services used by `calcForce` are code outside the
  repository; they are parameters (`Collaborators`).  The force sink `bodyForces` is an arbitrary
  type `S` that only `applyForceToBodyPoint` touches.
* `std::vector<Parameters>` is a `List`; `resize` follows the C++ semantics.
* `assert` is an active check: a violated assertion ends the call with `Error.assertionFailed`.
  Every operation returns its result together with the model state after the call, so that the
  `const_cast` growth performed inside the `const` method `getParameters` is visible.
* The lvalue returned by `updParameters` is the slot number it designates.  A reference
  returned by `getParameters` gives the stored value for as long as the vector is not resized;
  `calcForce` keeps the reference `param1` across the second `getParameters`, and when that
  call resizes the vector what is read through `param1` is unspecified (`readReleased`).
-/

namespace SimTK

/-- Three-component vector `Vec3`. -/
structure Vec3 (R : Type) where
  x : R
  y : R
  z : R
deriving DecidableEq, Repr

namespace Vec3

variable {R : Type} [LinearOrderedField R]

/-- Componentwise sum, `a + b`. -/
def add (a b : Vec3 R) : Vec3 R := ⟨a.x + b.x, a.y + b.y, a.z + b.z⟩

/-- Componentwise difference, `a - b`. -/
def sub (a b : Vec3 R) : Vec3 R := ⟨a.x - b.x, a.y - b.y, a.z - b.z⟩

/-- Scalar multiple, `s * v`. -/
def scale (s : R) (v : Vec3 R) : Vec3 R := ⟨s * v.x, s * v.y, s * v.z⟩

/-- Inner product, `dot(a, b)`. -/
def dot (a b : Vec3 R) : R := a.x * b.x + a.y * b.y + a.z * b.z

/-- The zero vector. -/
def zero : Vec3 R := ⟨0, 0, 0⟩

end Vec3

/-- Contact record produced by the contact subsystem (`Contact`), read through its getters. -/
structure Contact (R : Type) where
  firstBody : Int
  secondBody : Int
  location : Vec3 R
  normal : Vec3 R
  depth : R
  radius : R
deriving DecidableEq, Repr

/-- Ways a call can end without returning: a violated `assert`, or an element access past the
end of the vector. -/
inductive Error where
  | assertionFailed
  | outOfBounds
deriving DecidableEq, Repr

/-- Material parameters of one body, `HuntCrossleyForceImpl::Parameters`. -/
structure Parameters (R : Type) where
  stiffness : R
  dissipation : R
deriving DecidableEq, Repr

/-- What `calcForce` depends on outside the repository, at the `State` of the call:
`std::sqrt`, the three `MobilizedBody` methods (the body is named by its index in the contact
set, as `subsystem.getBody(set, index)` does), with `S` the type of `bodyForces`; and
`readReleased storage slot`, the value read through a reference to `storage[slot]` after a
`resize` of the vector, which may have moved the elements and released that storage.  The
language leaves that value unspecified, and no property of it is assumed. -/
structure Collaborators (R S : Type) where
  sqrt : R → R
  findStationAtGroundPoint : Int → Vec3 R → Vec3 R
  findStationVelocityInGround : Int → Vec3 R → Vec3 R
  applyForceToBodyPoint : Int → Vec3 R → Vec3 R → S → S
  readReleased : List (Parameters R) → Nat → Parameters R

/-- Semantics of `std::vector::resize(n)`: truncate to `n` elements, or append copies of the
value-initialised element `d` up to length `n`. -/
def resize {α : Type} (v : List α) (n : Nat) (d : α) : List α :=
  if n ≤ v.length then v.take n else v ++ List.replicate (n - v.length) d

/-- Semantics of `v[i]` as a read: defined only for `i < v.size()`. -/
def vectorAt {α : Type} (v : List α) (i : Nat) : Except Error α :=
  match v[i]? with
  | some a => .ok a
  | none => .error .outOfBounds

/-- Modelled from the spec: the default constructor `Parameters()` is declared in
`HuntCrossleyForceImpl.h`, which is not among the source files; the spec gives the default
material parameters as `(0, 0)`. -/
def Parameters.default {R : Type} [LinearOrderedField R] : Parameters R := ⟨0, 0⟩

/-- State of a `HuntCrossleyForceImpl`: `numBodies` is `subsystem.getNumBodies(set)` and
`parameters` is the member vector. -/
structure HuntCrossleyForceImpl (R : Type) where
  numBodies : Int
  parameters : List (Parameters R)
deriving DecidableEq, Repr

namespace HuntCrossleyForceImpl

variable {R S : Type} [LinearOrderedField R]

/-- Constructor: the parameter vector starts empty. -/
def new (numBodies : Int) : HuntCrossleyForceImpl R := ⟨numBodies, []⟩

/-- `getParameters(bodyIndex)`: the assertion, the growth through `const_cast`, then the read.
After the assertion `bodyIndex` is non-negative, so the comparison with the unsigned
`parameters.size()` is a comparison of natural numbers. -/
def getParameters (self : HuntCrossleyForceImpl R) (bodyIndex : Int) :
    Except Error (Parameters R) × HuntCrossleyForceImpl R :=
  if bodyIndex ≥ 0 ∧ bodyIndex < self.numBodies then
    let self1 : HuntCrossleyForceImpl R :=
      if bodyIndex.toNat ≥ self.parameters.length then
        { self with parameters := resize self.parameters (bodyIndex.toNat + 1) Parameters.default }
      else self
    (vectorAt self1.parameters bodyIndex.toNat, self1)
  else (.error .assertionFailed, self)

/-- `updParameters(bodyIndex)`: the assertion, the growth, then the slot `parameters[bodyIndex]`
as an lvalue (its index). -/
def updParameters (self : HuntCrossleyForceImpl R) (bodyIndex : Int) :
    Except Error Nat × HuntCrossleyForceImpl R :=
  if bodyIndex ≥ 0 ∧ bodyIndex < self.numBodies then
    let self1 : HuntCrossleyForceImpl R :=
      if bodyIndex.toNat ≥ self.parameters.length then
        { self with parameters := resize self.parameters (bodyIndex.toNat + 1) Parameters.default }
      else self
    if bodyIndex.toNat < self1.parameters.length then (.ok bodyIndex.toNat, self1)
    else (.error .outOfBounds, self1)
  else (.error .assertionFailed, self)

/-- `setBodyParameters(bodyIndex, stiffness, dissipation)`: assignment through the lvalue
returned by `updParameters`. -/
def setBodyParameters (self : HuntCrossleyForceImpl R) (bodyIndex : Int)
    (stiffness dissipation : R) : Except Error Unit × HuntCrossleyForceImpl R :=
  match updParameters self bodyIndex with
  | (.ok slot, self1) =>
    (.ok (), { self1 with parameters := self1.parameters.set slot ⟨stiffness, dissipation⟩ })
  | (.error e, self1) => (.error e, self1)

namespace calcForce

/-- Local `s1`. -/
def s1 (param1 param2 : Parameters R) : R :=
  param2.stiffness / (param1.stiffness + param2.stiffness)

/-- Local `s2`. -/
def s2 (param1 param2 : Parameters R) : R := 1 - s1 param1 param2

/-- Local `location`: the contact location adjusted by the relative stiffness. -/
def location (param1 param2 : Parameters R) (contact : Contact R) : Vec3 R :=
  Vec3.add contact.location
    (Vec3.scale (contact.depth * (0.5 - s1 param1 param2)) contact.normal)

/-- Local `k`. -/
def k (param1 param2 : Parameters R) : R := param1.stiffness * s1 param1 param2

/-- Local `c`. -/
def c (param1 param2 : Parameters R) : R :=
  param1.dissipation * s1 param1 param2 + param2.dissipation * s2 param1 param2

/-- Local `curvature`. -/
def curvature (contact : Contact R) : R := contact.radius * contact.radius / contact.depth

/-- Local `fH`, the Hertz force. -/
def fH (env : Collaborators R S) (param1 param2 : Parameters R) (contact : Contact R) : R :=
  (4.0 / 3.0) * k param1 param2 * contact.depth
    * env.sqrt (curvature contact * k param1 param2 * contact.depth)

/-- Local `station1`. -/
def station1 (env : Collaborators R S) (param1 param2 : Parameters R) (contact : Contact R) :
    Vec3 R :=
  env.findStationAtGroundPoint contact.firstBody (location param1 param2 contact)

/-- Local `station2`. -/
def station2 (env : Collaborators R S) (param1 param2 : Parameters R) (contact : Contact R) :
    Vec3 R :=
  env.findStationAtGroundPoint contact.secondBody (location param1 param2 contact)

/-- Local `v = v1 - v2`, the relative velocity at the contact point. -/
def v (env : Collaborators R S) (param1 param2 : Parameters R) (contact : Contact R) : Vec3 R :=
  Vec3.sub (env.findStationVelocityInGround contact.firstBody (station1 env param1 param2 contact))
    (env.findStationVelocityInGround contact.secondBody (station2 env param1 param2 contact))

/-- Local `f`, the Hunt-Crossley force magnitude. -/
def f (env : Collaborators R S) (param1 param2 : Parameters R) (contact : Contact R) : R :=
  fH env param1 param2 contact
    * (1 + 1.5 * c param1 param2 * Vec3.dot (v env param1 param2 contact) contact.normal)

/-- The two `applyForceToBodyPoint` calls of the branch `f > 0`, in source order. -/
def applyForces (env : Collaborators R S) (param1 param2 : Parameters R) (contact : Contact R)
    (bodyForces : S) : S :=
  env.applyForceToBodyPoint contact.secondBody (station2 env param1 param2 contact)
    (Vec3.scale (f env param1 param2 contact) contact.normal)
    (env.applyForceToBodyPoint contact.firstBody (station1 env param1 param2 contact)
      (Vec3.scale (-(f env param1 param2 contact)) contact.normal) bodyForces)

/-- One iteration of the loop of `calcForce`, for the contact `contacts[i]`.  `param1` is a
reference to the element of the first body, taken before the second `getParameters`: when that
call resizes the vector (`bodyIndex >= parameters.size()`), the lines that follow read
`param1` from storage that may have been released, and the value they get is
`env.readReleased`; otherwise they get the stored value. -/
def iteration (env : Collaborators R S) (self : HuntCrossleyForceImpl R) (bodyForces : S)
    (contact : Contact R) : Except Error Unit × HuntCrossleyForceImpl R × S :=
  match getParameters self contact.firstBody with
  | (.error e, self1) => (.error e, self1, bodyForces)
  | (.ok stored1, self1) =>
    match getParameters self1 contact.secondBody with
    | (.error e, self2) => (.error e, self2, bodyForces)
    | (.ok param2, self2) =>
      let param1 : Parameters R :=
        if contact.secondBody.toNat ≥ self1.parameters.length then
          env.readReleased self1.parameters contact.firstBody.toNat
        else stored1
      if f env param1 param2 contact > 0 then
        (.ok (), self2, applyForces env param1 param2 contact bodyForces)
      else (.ok (), self2, bodyForces)

end calcForce

/-- `calcForce`: the loop over the contact list, from the first contact to the last. -/
def calcForce (env : Collaborators R S) (self : HuntCrossleyForceImpl R) (bodyForces : S) :
    List (Contact R) → Except Error Unit × HuntCrossleyForceImpl R × S
  | [] => (.ok (), self, bodyForces)
  | contact :: rest =>
    match calcForce.iteration env self bodyForces contact with
    | (.ok (), self1, bodyForces1) => calcForce env self1 bodyForces1 rest
    | (.error e, self1, bodyForces1) => (.error e, self1, bodyForces1)

/-- `calcPotentialEnergy(state)`. -/
def calcPotentialEnergy {σ : Type} (_self : HuntCrossleyForceImpl R) (_state : σ) : R := 0

/-- One call on the public interface of the model.  An assignment through the reference
returned by `updParameters(i)` is the call `setBodyParameters` with the assigned values. -/
inductive Call (R : Type) where
  | setBodyParameters (bodyIndex : Int) (stiffness dissipation : R)
  | getParameters (bodyIndex : Int)
  | updParameters (bodyIndex : Int)
  | calcForce (contacts : List (Contact R))

/-- State of the model and of the force sink after one call; the value the call returns is
dropped. -/
def Call.run (env : Collaborators R S) (self : HuntCrossleyForceImpl R) (bodyForces : S) :
    Call R → HuntCrossleyForceImpl R × S
  | .setBodyParameters i s d => ((self.setBodyParameters i s d).2, bodyForces)
  | .getParameters i => ((self.getParameters i).2, bodyForces)
  | .updParameters i => ((self.updParameters i).2, bodyForces)
  | .calcForce contacts => (HuntCrossleyForceImpl.calcForce env self bodyForces contacts).2

/-- State after a sequence of calls, made in order. -/
def runCalls (env : Collaborators R S) (self : HuntCrossleyForceImpl R) (bodyForces : S) :
    List (Call R) → HuntCrossleyForceImpl R × S
  | [] => (self, bodyForces)
  | call :: rest =>
    runCalls env (call.run env self bodyForces).1 (call.run env self bodyForces).2 rest

/-- No read of a second body resizes the vector, in a run of `calcForce` that starts with a
storage of `length` entries: the index of each second body is below the length that the storage
has after the read of the first body of its contact.  In such a run the reference `param1` is
never read after a resize. -/
def calcForce.keepsReferences (length : Nat) : List (Contact R) → Prop
  | [] => True
  | contact :: rest =>
    contact.secondBody.toNat < max length (contact.firstBody.toNat + 1)
      ∧ calcForce.keepsReferences (max length (contact.firstBody.toNat + 1)) rest

/-- The storage of `self1` is the storage of `self` followed by default entries, for the same
number of bodies. -/
def Grows (self self1 : HuntCrossleyForceImpl R) : Prop :=
  self1.numBodies = self.numBodies ∧
    ∃ n : Nat, self1.parameters = self.parameters ++ List.replicate n Parameters.default

end HuntCrossleyForceImpl

namespace Examples

/-- A force sink that records the applied forces: body, station, force. -/
abbrev Log : Type := List (Int × Vec3 ℚ × Vec3 ℚ)

/-- Collaborators over `ℚ`: stations are ground points, body `0` moves with velocity
`(0, 0, 1)` and every other body is at rest, and the sink is a log.  The function in the place
of `sqrt` is the identity, which is the square root at the arguments `0` and `1`.  A read
through a reference into a resized vector gives `(7, 7)`, whatever was stored. -/
def env : Collaborators ℚ Log where
  sqrt := fun x => x
  findStationAtGroundPoint := fun _ p => p
  findStationVelocityInGround := fun b _ => if b = 0 then ⟨0, 0, 1⟩ else ⟨0, 0, 0⟩
  applyForceToBodyPoint := fun b station force log => log ++ [(b, station, force)]
  readReleased := fun _ _ => ⟨7, 7⟩

/-- Two bodies with stiffness `2` and dissipation `1`: `s1 = s2 = 1/2`, `k = 1`, `c = 1`. -/
def model : HuntCrossleyForceImpl ℚ := ⟨2, [⟨2, 1⟩, ⟨2, 1⟩]⟩

/-- Contact between bodies `0` and `1` with depth `1` and radius `1`, so that `sqrt` is taken
at `1` for `model`; along this normal the relative velocity of `env` is `-1`. -/
def separating : Contact ℚ := ⟨0, 1, ⟨0, 0, 0⟩, ⟨0, 0, -1⟩, 1, 1⟩

/-- Contact between bodies `0` and `1` with depth `1` and radius `1`, so that `sqrt` is taken
at `1` for `model`; along this normal the relative velocity of `env` is `1`. -/
def approaching : Contact ℚ := ⟨0, 1, ⟨0, 0, 0⟩, ⟨0, 0, 1⟩, 1, 1⟩

/-- Contact between bodies `0` and `1` whose normal is orthogonal to the relative velocity of
`env`, with depth `0.01` and radius `0.05`. -/
def sliding : Contact ℚ := ⟨0, 1, ⟨0, 0, 0⟩, ⟨1, 0, 0⟩, 0.01, 0.05⟩

/-- Three bodies of which only body `0` has a stored entry. -/
def short : HuntCrossleyForceImpl ℚ := ⟨3, [⟨2, 1⟩]⟩

/-- Contact between bodies `0` and `2` with depth `1` and radius `1`. -/
def reaching : Contact ℚ := ⟨0, 2, ⟨0, 0, 0⟩, ⟨0, 0, 1⟩, 1, 1⟩

/-- Contact between bodies `2` and `0` with depth `1` and radius `1`: on `short` the read of the
first body resizes the vector and the read of the second body does not. -/
def growing : Contact ℚ := ⟨2, 0, ⟨0, 0, 0⟩, ⟨0, 0, 1⟩, 1, 1⟩

/-- Calls made on a newly constructed model of three bodies: index `2` is set, index `0` is
read and a force evaluation runs on a contact between bodies `0` and `2`; index `1` is never
set. -/
def calls : List (HuntCrossleyForceImpl.Call ℚ) :=
  [.setBodyParameters 2 5 7, .getParameters 0, .calcForce [reaching]]

end Examples

end SimTK

namespace SimTK

/-- Opposite vector, `-v`. -/
def Vec3.neg {R : Type} [LinearOrderedField R] (v : Vec3 R) : Vec3 R := ⟨-v.x, -v.y, -v.z⟩

/-- The same contact with its two bodies named in the other order: first and second body
exchanged and the normal negated. -/
def Contact.relabel {R : Type} [LinearOrderedField R] (contact : Contact R) : Contact R :=
  { contact with
    firstBody := contact.secondBody
    secondBody := contact.firstBody
    normal := Vec3.neg contact.normal }

end SimTK

namespace SimTK

namespace HuntCrossleyForceImpl

variable {R S : Type} [LinearOrderedField R]

/-- Modelled from the spec: `MobilizedBody::applyForceToBodyPoint` and the force sink it writes
are not among the source files.  The spec describes the sink as accepting "apply this force
vector at this body-fixed material point", accumulating across calls: applying a force adds to
the sink a contribution `w body station force` that does not depend on what the sink holds. -/
def AdditiveSink [AddMonoid S] (env : Collaborators R S) (w : Int → Vec3 R → Vec3 R → S) :
    Prop :=
  ∀ (body : Int) (station force : Vec3 R) (bodyForces : S),
    env.applyForceToBodyPoint body station force bodyForces = bodyForces + w body station force

/-- Contribution of one contact to an additive sink, for the parameters that `self` holds (the
default for a body without a stored entry): the two applied forces when `f > 0`, nothing
otherwise. -/
def calcForce.contribution [AddMonoid S] (w : Int → Vec3 R → Vec3 R → S)
    (env : Collaborators R S) (self : HuntCrossleyForceImpl R) (contact : Contact R) : S :=
  let param1 := self.parameters.getD contact.firstBody.toNat Parameters.default
  let param2 := self.parameters.getD contact.secondBody.toNat Parameters.default
  if calcForce.f env param1 param2 contact > 0 then
    w contact.firstBody (calcForce.station1 env param1 param2 contact)
        (Vec3.scale (-(calcForce.f env param1 param2 contact)) contact.normal)
      + w contact.secondBody (calcForce.station2 env param1 param2 contact)
        (Vec3.scale (calcForce.f env param1 param2 contact) contact.normal)
  else 0

end HuntCrossleyForceImpl

namespace Examples

/-- A force sink that holds, for every body, the sum of the forces applied to it. -/
abbrev Totals : Type := Int → ℚ × ℚ × ℚ

/-- Contribution of one applied force to `Totals`: the force, at the entry of its body. -/
def weight : Int → Vec3 ℚ → Vec3 ℚ → Totals :=
  fun body _ force i => if i = body then (force.x, force.y, force.z) else 0

/-- Collaborators like `env`, with a sink that adds each force to the entry of its body. -/
def accumulating : Collaborators ℚ Totals where
  sqrt := fun x => x
  findStationAtGroundPoint := fun _ p => p
  findStationVelocityInGround := fun b _ => if b = 0 then ⟨0, 0, 1⟩ else ⟨0, 0, 0⟩
  applyForceToBodyPoint := fun body _ force sink i =>
    if i = body then sink i + (force.x, force.y, force.z) else sink i
  readReleased := fun _ _ => ⟨7, 7⟩

end Examples

end SimTK

namespace SimTK

namespace HuntCrossleyForceImpl

variable {R S : Type} [LinearOrderedField R]

/-- Body indices that `calcForce` reads for a contact list, in the order of the reads. -/
def contactBodies : List (Contact R) → List Int
  | [] => []
  | contact :: rest => contact.firstBody :: contact.secondBody :: contactBodies rest

/-- Body indices that a call accesses. -/
def Call.accessed : Call R → List Int
  | .setBodyParameters i _ _ => [i]
  | .getParameters i => [i]
  | .updParameters i => [i]
  | .calcForce contacts => contactBodies contacts

/-- Body indices accessed by a sequence of calls. -/
def accessedBy : List (Call R) → List Int
  | [] => []
  | call :: rest => call.accessed ++ accessedBy rest

/-- Maximum of `index + 1` over a list of non-negative body indices, `0` for the empty list. -/
def maxSlots : List Int → Nat
  | [] => 0
  | i :: rest => max (i.toNat + 1) (maxSlots rest)

end HuntCrossleyForceImpl

end SimTK

/-!
# Contact geometry shapes

A shallow embedding of `src/include/simbody/internal/ContactGeometryImpl.h`.  Objects created
with `new` live in a store in which a pointer is the position of the object; the type registry
is process-wide state next to it.  The reference member `type` is modelled by the string it is
bound to at construction.
-/

namespace SimTK

/-- Dynamic type of a geometry object with the members its derived class adds:
`ContactGeometry::HalfSpaceImpl` has none, `ContactGeometry::SphereImpl` has `radius`. -/
inductive ContactGeometry.Derived (R : Type) where
  | HalfSpaceImpl
  | SphereImpl (radius : R)
deriving DecidableEq, Repr

/-- Members of `ContactGeometryImpl` (`myHandle` is `none` for the null pointer), with the
part of the object that belongs to the derived class. -/
structure ContactGeometryImpl (R : Type) where
  myHandle : Option Nat
  type : String
  typeIndex : Int
  derived : ContactGeometry.Derived R
deriving DecidableEq, Repr

/-- Process-wide state: the type registry, as the list of registered type names in the order of
registration, and the store of geometry objects. -/
structure Process (R : Type) where
  typeRegistry : List String
  objects : List (ContactGeometryImpl R)
deriving DecidableEq, Repr

/-- State of a process that has not created a shape yet. -/
def Process.start {R : Type} : Process R := ⟨[], []⟩

namespace ContactGeometryImpl

variable {R : Type}

/-- Modelled from the spec: `getIndexForType` is declared in the header and defined in a file
that is not among the source files.  It returns the integer previously assigned to the type
name, or assigns the next unused integer, counted from the first registration, to a new name
and returns it. -/
def getIndexForType (typeRegistry : List String) (type : String) : Int × List String :=
  if type ∈ typeRegistry then (typeRegistry.indexOf type, typeRegistry)
  else (typeRegistry.length, typeRegistry ++ [type])

/-- Modelled from the spec: the constructor `ContactGeometryImpl(type)` is declared in the
header and defined in a file that is not among the source files.  It binds `type`, takes
`typeIndex` from the type registry for that name, and starts without a handle. -/
def construct (typeRegistry : List String) (type : String)
    (derived : ContactGeometry.Derived R) : ContactGeometryImpl R × List String :=
  (⟨none, type, (getIndexForType typeRegistry type).1, derived⟩,
    (getIndexForType typeRegistry type).2)

/-- `operator new`: the object is stored at a position that no object has yet. -/
def allocate (process : Process R) (object : ContactGeometryImpl R × List String) :
    Nat × Process R :=
  (process.objects.length, ⟨object.2, process.objects ++ [object.1]⟩)

/-- `HalfSpaceImpl::Type()`. -/
def HalfSpaceImpl.Type : String := "halfspace"

/-- `SphereImpl::Type()`. -/
def SphereImpl.Type : String := "sphere"

/-- `new HalfSpaceImpl()`. -/
def HalfSpaceImpl.new (process : Process R) : Nat × Process R :=
  allocate process (construct process.typeRegistry HalfSpaceImpl.Type .HalfSpaceImpl)

/-- `new SphereImpl(radius)`. -/
def SphereImpl.new (process : Process R) (radius : R) : Nat × Process R :=
  allocate process (construct process.typeRegistry SphereImpl.Type (.SphereImpl radius))

/-- `this->getType()`; `none` when `this` points to no object. -/
def getType (process : Process R) (this : Nat) : Option String :=
  process.objects[this]?.map (fun object => object.type)

/-- `this->getTypeIndex()`; `none` when `this` points to no object. -/
def getTypeIndex (process : Process R) (this : Nat) : Option Int :=
  process.objects[this]?.map (fun object => object.typeIndex)

/-- `this->clone()`, dispatched on the dynamic type; `none` when `this` points to no object. -/
def clone (process : Process R) (this : Nat) : Option (Nat × Process R) :=
  match process.objects[this]? with
  | none => none
  | some object =>
    match object.derived with
    | .HalfSpaceImpl => some (HalfSpaceImpl.new process)
    | .SphereImpl radius => some (SphereImpl.new process radius)

/-- `this->getRadius()` for `this` of type `SphereImpl*`; `none` when `this` does not point to
a sphere. -/
def SphereImpl.getRadius (process : Process R) (this : Nat) : Option R :=
  match process.objects[this]? with
  | some ⟨_, _, _, .SphereImpl radius⟩ => some radius
  | _ => none

/-- `this->setRadius(r)` for `this` of type `SphereImpl*`; `none` when `this` does not point to
a sphere. -/
def SphereImpl.setRadius (process : Process R) (this : Nat) (r : R) : Option (Process R) :=
  match process.objects[this]? with
  | some ⟨myHandle, type, typeIndex, .SphereImpl _⟩ =>
    some { process with
      objects := process.objects.set this ⟨myHandle, type, typeIndex, .SphereImpl r⟩ }
  | _ => none

/-- Whether `this` points to a `HalfSpaceImpl`. -/
def isHalfSpace (process : Process R) (this : Nat) : Prop :=
  process.objects[this]?.map (fun object => object.derived) = some .HalfSpaceImpl

/-- Type name that the constructor of each derived class passes on, `Type()`. -/
def typeName : ContactGeometry.Derived R → String
  | .HalfSpaceImpl => HalfSpaceImpl.Type
  | .SphereImpl _ => SphereImpl.Type

/-- Every stored object carries the type name of its class, registered, with the index the
registry holds for that name. -/
def WellFormed (process : Process R) : Prop :=
  ∀ object ∈ process.objects,
    object.type = typeName object.derived
      ∧ object.type ∈ process.typeRegistry
      ∧ object.typeIndex = process.typeRegistry.indexOf object.type

/-- One operation on shapes. -/
inductive Call (R : Type) where
  | newHalfSpace
  | newSphere (radius : R)
  | clone (this : Nat)
  | setRadius (this : Nat) (r : R)

/-- State of the process after one operation; an operation on a pointer to no object, or
`setRadius` on a pointer to no sphere, is not made. -/
def Call.run (process : Process R) : Call R → Process R
  | .newHalfSpace => (HalfSpaceImpl.new process).2
  | .newSphere radius => (SphereImpl.new process radius).2
  | .clone this =>
    match ContactGeometryImpl.clone process this with
    | some result => result.2
    | none => process
  | .setRadius this r =>
    match SphereImpl.setRadius process this r with
    | some process1 => process1
    | none => process

/-- State of the process after a sequence of operations, made in order. -/
def runCalls (process : Process R) : List (Call R) → Process R
  | [] => process
  | call :: rest => runCalls (call.run process) rest

end ContactGeometryImpl

namespace Examples

/-- A process that created a half-space, then a sphere of radius `2`. -/
def shapes : Process ℚ :=
  ContactGeometryImpl.runCalls Process.start [.newHalfSpace, .newSphere 2]

end Examples

end SimTK

/-! ## Storage lemmas -/

namespace SimTK

section Storage

variable {R S : Type} [LinearOrderedField R]

theorem vectorAt_of_lt {α : Type} (v : List α) (i : Nat) (d : α) (h : i < v.length) :
    vectorAt v i = .ok (v.getD i d) := by
  unfold vectorAt
  rw [List.getD_eq_getElem?_getD, List.getElem?_eq_getElem h]
  rfl

theorem getD_append_replicate {α : Type} (v : List α) (n j : Nat) (d : α) :
    (v ++ List.replicate n d).getD j d = v.getD j d := by
  rw [List.getD_eq_getElem?_getD, List.getD_eq_getElem?_getD]
  by_cases h : j < v.length
  · rw [List.getElem?_append_left h]
  · have h1 : v.length ≤ j := Nat.le_of_not_lt h
    rw [List.getElem?_append_right h1, List.getElem?_eq_none h1]
    by_cases h2 : j - v.length < n
    · rw [List.getElem?_replicate_of_lt h2]; rfl
    · rw [List.getElem?_eq_none (by simpa using Nat.le_of_not_lt h2)]

/-- Growth performed by `getParameters` and `updParameters` at slot `i`. -/
theorem grow_eq (v : List (Parameters R)) (i : Nat) :
    (if i ≥ v.length then resize v (i + 1) Parameters.default else v)
      = v ++ List.replicate (i + 1 - v.length) Parameters.default := by
  unfold resize
  split_ifs with h1 h2
  · omega
  · rfl
  · have : i + 1 - v.length = 0 := by omega
    rw [this]; simp

theorem getD_set_grown_self (v : List (Parameters R)) (i : Nat) (p : Parameters R) :
    ((v ++ List.replicate (i + 1 - v.length) Parameters.default).set i p).getD i
      Parameters.default = p := by
  rw [List.getD_eq_getElem?_getD, List.getElem?_set_self (by simp; omega)]
  rfl

theorem getD_set_grown_other (v : List (Parameters R)) (i j : Nat) (p : Parameters R)
    (h : i ≠ j) :
    ((v ++ List.replicate (i + 1 - v.length) Parameters.default).set i p).getD j
      Parameters.default = v.getD j Parameters.default := by
  rw [List.getD_eq_getElem?_getD, List.getElem?_set_ne h, ← List.getD_eq_getElem?_getD,
    getD_append_replicate]

namespace HuntCrossleyForceImpl

theorem getParameters_of_valid (self : HuntCrossleyForceImpl R) (i : Int)
    (h0 : 0 ≤ i) (h1 : i < self.numBodies) :
    getParameters self i =
      (.ok (self.parameters.getD i.toNat Parameters.default),
        { self with parameters := self.parameters ++
            List.replicate (i.toNat + 1 - self.parameters.length) Parameters.default }) := by
  unfold getParameters
  rw [if_pos ⟨h0, h1⟩]
  have hg := grow_eq self.parameters i.toNat
  by_cases hl : i.toNat ≥ self.parameters.length
  · rw [if_pos hl] at hg
    simp only [if_pos hl, hg]
    rw [vectorAt_of_lt _ _ Parameters.default (by simp; omega), getD_append_replicate]
  · rw [if_neg hl] at hg
    simp only [if_neg hl, ← hg]
    rw [vectorAt_of_lt _ _ Parameters.default (by omega)]

theorem getParameters_value (n : Int) (ps : List (Parameters R)) (i : Int)
    (h0 : 0 ≤ i) (h1 : i < n) :
    (getParameters (⟨n, ps⟩ : HuntCrossleyForceImpl R) i).1
      = .ok (ps.getD i.toNat Parameters.default) := by
  rw [getParameters_of_valid ⟨n, ps⟩ i h0 h1]

theorem updParameters_of_valid (self : HuntCrossleyForceImpl R) (i : Int)
    (h0 : 0 ≤ i) (h1 : i < self.numBodies) :
    updParameters self i =
      (.ok i.toNat,
        { self with parameters := self.parameters ++
            List.replicate (i.toNat + 1 - self.parameters.length) Parameters.default }) := by
  unfold updParameters
  rw [if_pos ⟨h0, h1⟩]
  have hg := grow_eq self.parameters i.toNat
  by_cases hl : i.toNat ≥ self.parameters.length
  · rw [if_pos hl] at hg
    simp only [if_pos hl, hg]
    rw [if_pos (by simp; omega)]
  · rw [if_neg hl] at hg
    simp only [if_neg hl, ← hg]
    rw [if_pos (by omega)]

theorem setBodyParameters_of_valid (self : HuntCrossleyForceImpl R) (i : Int) (s d : R)
    (h0 : 0 ≤ i) (h1 : i < self.numBodies) :
    setBodyParameters self i s d =
      (.ok (),
        { self with parameters := List.set (self.parameters ++ List.replicate
            (i.toNat + 1 - self.parameters.length) Parameters.default) i.toNat ⟨s, d⟩ }) := by
  unfold setBodyParameters
  rw [updParameters_of_valid self i h0 h1]

theorem getParameters_of_invalid (self : HuntCrossleyForceImpl R) (i : Int)
    (h : i < 0 ∨ self.numBodies ≤ i) :
    getParameters self i = (.error .assertionFailed, self) := by
  unfold getParameters
  rw [if_neg (by omega)]

theorem updParameters_of_invalid (self : HuntCrossleyForceImpl R) (i : Int)
    (h : i < 0 ∨ self.numBodies ≤ i) :
    updParameters self i = (.error .assertionFailed, self) := by
  unfold updParameters
  rw [if_neg (by omega)]

theorem setBodyParameters_of_invalid (self : HuntCrossleyForceImpl R) (i : Int) (s d : R)
    (h : i < 0 ∨ self.numBodies ≤ i) :
    setBodyParameters self i s d = (.error .assertionFailed, self) := by
  unfold setBodyParameters
  rw [updParameters_of_invalid self i h]

theorem Grows.refl (self : HuntCrossleyForceImpl R) : Grows self self :=
  ⟨rfl, 0, by simp⟩

theorem Grows.trans {a b c : HuntCrossleyForceImpl R} (hab : Grows a b) (hbc : Grows b c) :
    Grows a c := by
  obtain ⟨hn1, n1, hp1⟩ := hab
  obtain ⟨hn2, n2, hp2⟩ := hbc
  refine ⟨hn2.trans hn1, n1 + n2, ?_⟩
  rw [hp2, hp1, List.append_assoc, ← List.replicate_add]

theorem Grows.getD_eq {a b : HuntCrossleyForceImpl R} (hab : Grows a b) (j : Nat) :
    b.parameters.getD j Parameters.default = a.parameters.getD j Parameters.default := by
  obtain ⟨_, n, hp⟩ := hab
  rw [hp, getD_append_replicate]

theorem getParameters_grows (self : HuntCrossleyForceImpl R) (i : Int) :
    Grows self (getParameters self i).2 := by
  by_cases h : 0 ≤ i ∧ i < self.numBodies
  · rw [getParameters_of_valid self i h.1 h.2]
    exact ⟨rfl, _, rfl⟩
  · rw [getParameters_of_invalid self i (by omega)]
    exact Grows.refl self

theorem updParameters_grows (self : HuntCrossleyForceImpl R) (i : Int) :
    Grows self (updParameters self i).2 := by
  by_cases h : 0 ≤ i ∧ i < self.numBodies
  · rw [updParameters_of_valid self i h.1 h.2]
    exact ⟨rfl, _, rfl⟩
  · rw [updParameters_of_invalid self i (by omega)]
    exact Grows.refl self

theorem getParameters_stored (self : HuntCrossleyForceImpl R) (i : Int)
    (h0 : 0 ≤ i) (h1 : i.toNat < self.parameters.length) (h2 : i < self.numBodies) :
    (getParameters self i).2 = self := by
  rw [getParameters_of_valid self i h0 h2]
  have : i.toNat + 1 - self.parameters.length = 0 := by omega
  rw [this]
  simp

/-- A read that resizes the vector returns the default parameters. -/
theorem getParameters_default_of_resize (self self1 : HuntCrossleyForceImpl R) (i : Int)
    (param : Parameters R) (h : getParameters self i = (.ok param, self1))
    (hg : i.toNat ≥ self.parameters.length) : param = Parameters.default := by
  by_cases hv : 0 ≤ i ∧ i < self.numBodies
  · rw [getParameters_of_valid self i hv.1 hv.2] at h
    simp only [Prod.mk.injEq, Except.ok.injEq] at h
    rw [← h.1, List.getD_eq_getElem?_getD, List.getElem?_eq_none hg]
    rfl
  · rw [getParameters_of_invalid self i (by omega)] at h
    simp at h

/-- With a second body of stiffness `0` the magnitude `f` is `0`, whatever the parameters of the
first body are. -/
theorem f_eq_zero_of_stiffness_zero (env : Collaborators R S) (param1 param2 : Parameters R)
    (contact : Contact R) (h : param2.stiffness = 0) :
    calcForce.f env param1 param2 contact = 0 := by
  unfold calcForce.f calcForce.fH calcForce.k calcForce.s1
  rw [h]
  simp

theorem iteration_of_first_error (env : Collaborators R S)
    (self self1 : HuntCrossleyForceImpl R) (bodyForces : S) (contact : Contact R) (e : Error)
    (h1 : getParameters self contact.firstBody = (.error e, self1)) :
    calcForce.iteration env self bodyForces contact = (.error e, self1, bodyForces) := by
  unfold calcForce.iteration
  simp only [h1]

theorem iteration_of_second_error (env : Collaborators R S)
    (self self1 self2 : HuntCrossleyForceImpl R) (bodyForces : S) (contact : Contact R)
    (param1 : Parameters R) (e : Error)
    (h1 : getParameters self contact.firstBody = (.ok param1, self1))
    (h2 : getParameters self1 contact.secondBody = (.error e, self2)) :
    calcForce.iteration env self bodyForces contact = (.error e, self2, bodyForces) := by
  unfold calcForce.iteration
  simp only [h1, h2]

theorem iteration_of_ok (env : Collaborators R S)
    (self self1 self2 : HuntCrossleyForceImpl R) (bodyForces : S) (contact : Contact R)
    (param1 param2 : Parameters R)
    (h1 : getParameters self contact.firstBody = (.ok param1, self1))
    (h2 : getParameters self1 contact.secondBody = (.ok param2, self2)) :
    calcForce.iteration env self bodyForces contact
      = if calcForce.f env param1 param2 contact > 0 then
          (.ok (), self2, calcForce.applyForces env param1 param2 contact bodyForces)
        else (.ok (), self2, bodyForces) := by
  unfold calcForce.iteration
  simp only [h1, h2]
  by_cases hg : contact.secondBody.toNat ≥ self1.parameters.length
  · have hp2 := getParameters_default_of_resize self1 self2 contact.secondBody param2 h2 hg
    have hz : param2.stiffness = 0 := by rw [hp2]; rfl
    rw [if_pos hg, f_eq_zero_of_stiffness_zero env _ param2 contact hz,
      f_eq_zero_of_stiffness_zero env param1 param2 contact hz]
    simp
  · rw [if_neg hg]

/-- The model state after one iteration is the state after the two reads, or after the first
read alone when that one fails. -/
theorem iteration_state (env : Collaborators R S) (self : HuntCrossleyForceImpl R)
    (bodyForces : S) (contact : Contact R) :
    (calcForce.iteration env self bodyForces contact).2.1
        = (getParameters self contact.firstBody).2
      ∨ (calcForce.iteration env self bodyForces contact).2.1
        = (getParameters (getParameters self contact.firstBody).2 contact.secondBody).2 := by
  obtain ⟨r1, self1, hq1⟩ : ∃ r1 self1, getParameters self contact.firstBody = (r1, self1) :=
    ⟨_, _, rfl⟩
  cases r1 with
  | error e =>
    left
    rw [iteration_of_first_error env self self1 bodyForces contact e hq1, hq1]
  | ok param1 =>
    right
    obtain ⟨r2, self2, hq2⟩ :
        ∃ r2 self2, getParameters self1 contact.secondBody = (r2, self2) := ⟨_, _, rfl⟩
    cases r2 with
    | error e =>
      rw [iteration_of_second_error env self self1 self2 bodyForces contact param1 e hq1 hq2,
        hq1, hq2]
    | ok param2 =>
      rw [iteration_of_ok env self self1 self2 bodyForces contact param1 param2 hq1 hq2,
        hq1, hq2]
      split_ifs <;> rfl

theorem iteration_grows (env : Collaborators R S) (self : HuntCrossleyForceImpl R)
    (bodyForces : S) (contact : Contact R) :
    Grows self (calcForce.iteration env self bodyForces contact).2.1 := by
  rcases iteration_state env self bodyForces contact with h | h
  · rw [h]
    exact getParameters_grows self _
  · rw [h]
    exact (getParameters_grows self _).trans (getParameters_grows _ _)

theorem calcForce_grows (env : Collaborators R S) (contacts : List (Contact R)) :
    ∀ (self : HuntCrossleyForceImpl R) (bodyForces : S),
      Grows self (calcForce env self bodyForces contacts).2.1 := by
  induction contacts with
  | nil => intro self bodyForces; exact Grows.refl self
  | cons contact rest ih =>
    intro self bodyForces
    have g := iteration_grows env self bodyForces contact
    rw [calcForce]
    rcases hq : calcForce.iteration env self bodyForces contact with ⟨r, self1, bodyForces1⟩
    rw [hq] at g
    cases r with
    | error e => exact g
    | ok u => exact g.trans (ih self1 bodyForces1)

theorem iteration_ok (env : Collaborators R S) (self : HuntCrossleyForceImpl R)
    (bodyForces : S) (contact : Contact R)
    (h1 : 0 ≤ contact.firstBody ∧ contact.firstBody < self.numBodies)
    (h2 : 0 ≤ contact.secondBody ∧ contact.secondBody < self.numBodies) :
    (calcForce.iteration env self bodyForces contact).1 = .ok () := by
  have hq1 := getParameters_of_valid self _ h1.1 h1.2
  have hq2 := getParameters_of_valid (getParameters self contact.firstBody).2 _ h2.1
    (by rw [(getParameters_grows self contact.firstBody).1]; exact h2.2)
  rw [hq1] at hq2
  rw [iteration_of_ok env self _ _ bodyForces contact _ _ hq1 hq2]
  split_ifs <;> rfl

theorem iteration_stored (env : Collaborators R S) (self : HuntCrossleyForceImpl R)
    (bodyForces : S) (contact : Contact R)
    (h1 : 0 ≤ contact.firstBody ∧ contact.firstBody < self.numBodies)
    (h2 : 0 ≤ contact.secondBody ∧ contact.secondBody < self.numBodies)
    (l1 : contact.firstBody.toNat < self.parameters.length)
    (l2 : contact.secondBody.toNat < self.parameters.length) :
    (calcForce.iteration env self bodyForces contact).2.1 = self := by
  have e1 := getParameters_stored self _ h1.1 l1 h1.2
  have e2 := getParameters_stored self _ h2.1 l2 h2.2
  rcases iteration_state env self bodyForces contact with h | h
  · rw [h, e1]
  · rw [h, e1, e2]

theorem calcForce_ok (env : Collaborators R S) (contacts : List (Contact R)) :
    ∀ (self : HuntCrossleyForceImpl R) (bodyForces : S),
      (∀ contact ∈ contacts, (0 ≤ contact.firstBody ∧ contact.firstBody < self.numBodies)
        ∧ (0 ≤ contact.secondBody ∧ contact.secondBody < self.numBodies)) →
      (calcForce env self bodyForces contacts).1 = .ok () := by
  induction contacts with
  | nil => intro self bodyForces _; rfl
  | cons contact rest ih =>
    intro self bodyForces hv
    have hc := hv contact (List.mem_cons_self _ _)
    have hok := iteration_ok env self bodyForces contact hc.1 hc.2
    have hg := iteration_grows env self bodyForces contact
    rw [calcForce]
    rcases hq : calcForce.iteration env self bodyForces contact with ⟨r, self1, bodyForces1⟩
    rw [hq] at hok hg
    simp only at hok hg
    subst hok
    simp only
    apply ih
    intro c hcm
    rw [hg.1]
    exact hv c (List.mem_cons_of_mem _ hcm)

theorem calcForce_stored (env : Collaborators R S) (contacts : List (Contact R)) :
    ∀ (self : HuntCrossleyForceImpl R) (bodyForces : S),
      (∀ contact ∈ contacts, (0 ≤ contact.firstBody ∧ contact.firstBody < self.numBodies)
        ∧ (0 ≤ contact.secondBody ∧ contact.secondBody < self.numBodies)) →
      (∀ contact ∈ contacts, contact.firstBody.toNat < self.parameters.length
        ∧ contact.secondBody.toNat < self.parameters.length) →
      (calcForce env self bodyForces contacts).2.1 = self := by
  induction contacts with
  | nil => intro self bodyForces _ _; rfl
  | cons contact rest ih =>
    intro self bodyForces hv hl
    have hc := hv contact (List.mem_cons_self _ _)
    have hlc := hl contact (List.mem_cons_self _ _)
    have hok := iteration_ok env self bodyForces contact hc.1 hc.2
    have hst := iteration_stored env self bodyForces contact hc.1 hc.2 hlc.1 hlc.2
    rw [calcForce]
    rcases hq : calcForce.iteration env self bodyForces contact with ⟨r, self1, bodyForces1⟩
    rw [hq] at hok hst
    simp only at hok hst
    subst hok
    subst hst
    simp only
    exact ih _ bodyForces1 (fun c hcm => hv c (List.mem_cons_of_mem _ hcm))
      (fun c hcm => hl c (List.mem_cons_of_mem _ hcm))

/-- Reading a valid index gives the same value on two states related by `Grows`. -/
theorem Grows.getParameters_eq {a b : HuntCrossleyForceImpl R} (hab : Grows a b) (j : Int)
    (h0 : 0 ≤ j) (h1 : j < a.numBodies) :
    (getParameters b j).1 = (getParameters a j).1 := by
  have hb : j < b.numBodies := by rw [hab.1]; exact h1
  rw [getParameters_of_valid a j h0 h1, getParameters_of_valid b j h0 hb]
  simp only
  rw [hab.getD_eq]

/-- A call other than `setBodyParameters(i, ..)` keeps the number of bodies and the value read
at slot `i`. -/
theorem Call.run_keeps (env : Collaborators R S) (self : HuntCrossleyForceImpl R)
    (bodyForces : S) (call : Call R) (i : Int) (h0 : 0 ≤ i)
    (hcall : ∀ s d, call ≠ Call.setBodyParameters i s d) :
    (call.run env self bodyForces).1.numBodies = self.numBodies
      ∧ (call.run env self bodyForces).1.parameters.getD i.toNat Parameters.default
        = self.parameters.getD i.toNat Parameters.default := by
  cases call with
  | setBodyParameters j s d =>
    have hne : j ≠ i := fun h => hcall s d (by rw [h])
    by_cases hj : 0 ≤ j ∧ j < self.numBodies
    · simp only [Call.run]
      rw [setBodyParameters_of_valid self j s d hj.1 hj.2]
      refine ⟨rfl, ?_⟩
      simp only
      rw [getD_set_grown_other _ _ _ _ (by omega)]
    · simp only [Call.run]
      rw [setBodyParameters_of_invalid self j s d (by omega)]
      exact ⟨rfl, rfl⟩
  | getParameters j =>
    have g := getParameters_grows self j
    exact ⟨g.1, g.getD_eq _⟩
  | updParameters j =>
    have g := updParameters_grows self j
    exact ⟨g.1, g.getD_eq _⟩
  | calcForce contacts =>
    have g := calcForce_grows env contacts self bodyForces
    exact ⟨g.1, g.getD_eq _⟩

theorem runCalls_keeps (env : Collaborators R S) (i : Int) (h0 : 0 ≤ i)
    (calls : List (Call R)) :
    ∀ (self : HuntCrossleyForceImpl R) (bodyForces : S),
      (∀ s d, Call.setBodyParameters i s d ∉ calls) →
      (runCalls env self bodyForces calls).1.numBodies = self.numBodies
        ∧ (runCalls env self bodyForces calls).1.parameters.getD i.toNat Parameters.default
          = self.parameters.getD i.toNat Parameters.default := by
  induction calls with
  | nil => intro self bodyForces _; exact ⟨rfl, rfl⟩
  | cons call rest ih =>
    intro self bodyForces hun
    have hstep := Call.run_keeps env self bodyForces call i h0
      (fun s d h => hun s d (by rw [h]; exact List.mem_cons_self _ _))
    have hrest := ih (call.run env self bodyForces).1 (call.run env self bodyForces).2
      (fun s d h => hun s d (List.mem_cons_of_mem _ h))
    rw [runCalls]
    exact ⟨hrest.1.trans hstep.1, hrest.2.trans hstep.2⟩

end HuntCrossleyForceImpl

end Storage

end SimTK

/-! ## Force contribution of one contact -/

namespace SimTK

namespace HuntCrossleyForceImpl

variable {R S : Type} [LinearOrderedField R]

/-- C1: a contact whose signed magnitude `f = fH*(1 + 1.5*c*(v·normal))` is `≤ 0` contributes
no force.  The iteration of `calcForce` for that contact returns the force sink exactly as it
received it, and `calcForce` goes on with the remaining contacts from that same sink. -/
theorem calcForce_nonpositive_contributes_nothing (env : Collaborators R S)
    (self self1 self2 : HuntCrossleyForceImpl R) (bodyForces : S) (contact : Contact R)
    (rest : List (Contact R)) (param1 param2 : Parameters R)
    (h1 : getParameters self contact.firstBody = (.ok param1, self1))
    (h2 : getParameters self1 contact.secondBody = (.ok param2, self2))
    (hf : calcForce.fH env param1 param2 contact
      * (1 + 1.5 * calcForce.c param1 param2
          * Vec3.dot (calcForce.v env param1 param2 contact) contact.normal) ≤ 0) :
    calcForce.iteration env self bodyForces contact = (.ok (), self2, bodyForces)
      ∧ calcForce env self bodyForces (contact :: rest) = calcForce env self2 bodyForces rest := by
  have hit : calcForce.iteration env self bodyForces contact = (.ok (), self2, bodyForces) := by
    rw [iteration_of_ok env self self1 self2 bodyForces contact param1 param2 h1 h2]
    have hf1 : ¬ calcForce.f env param1 param2 contact > 0 := not_lt.mpr hf
    rw [if_neg hf1]
  refine ⟨hit, ?_⟩
  rw [calcForce, hit]

/-- C1 at a concrete contact: bodies of parameters `(2, 1)` separating with normal
velocity `-1`, where `f = -2/3`. -/
theorem calcForce_nonpositive_contributes_nothing_witness :
    calcForce.f Examples.env ⟨2, 1⟩ ⟨2, 1⟩ Examples.separating = -2 / 3
      ∧ calcForce.iteration Examples.env Examples.model [] Examples.separating
        = (.ok (), Examples.model, [])
      ∧ calcForce Examples.env Examples.model [] [Examples.separating]
        = calcForce Examples.env Examples.model [] [] :=
  ⟨by norm_num [calcForce.f, calcForce.fH, calcForce.c, calcForce.v, calcForce.k, calcForce.s1,
      calcForce.s2, calcForce.curvature, calcForce.station1, calcForce.station2,
      calcForce.location, Vec3.dot, Vec3.sub, Vec3.add, Vec3.scale, Examples.env,
      Examples.separating],
  calcForce_nonpositive_contributes_nothing Examples.env Examples.model Examples.model
    Examples.model [] Examples.separating [] ⟨2, 1⟩ ⟨2, 1⟩ rfl rfl
    (by norm_num [calcForce.fH, calcForce.c, calcForce.v, calcForce.k, calcForce.s1,
      calcForce.s2, calcForce.curvature, calcForce.station1, calcForce.station2,
      calcForce.location, Vec3.dot, Vec3.sub, Vec3.add, Vec3.scale, Examples.env,
      Examples.separating])⟩

/-- C2: a contact whose signed magnitude `f` is `> 0` makes the iteration of `calcForce` apply
the force `-f*normal` to the first body at `station1`, then `f*normal` to the second body at
`station2`, where each station is the material point of that body at the adjusted contact
location.  The two force vectors sum to the zero vector, and the first is `-1` times the
second. -/
theorem calcForce_positive_applies_opposite_forces (env : Collaborators R S)
    (self self1 self2 : HuntCrossleyForceImpl R) (bodyForces : S) (contact : Contact R)
    (param1 param2 : Parameters R)
    (h1 : getParameters self contact.firstBody = (.ok param1, self1))
    (h2 : getParameters self1 contact.secondBody = (.ok param2, self2))
    (hf : 0 < calcForce.fH env param1 param2 contact
      * (1 + 1.5 * calcForce.c param1 param2
          * Vec3.dot (calcForce.v env param1 param2 contact) contact.normal)) :
    calcForce.iteration env self bodyForces contact
        = (.ok (), self2,
            env.applyForceToBodyPoint contact.secondBody
              (env.findStationAtGroundPoint contact.secondBody
                (calcForce.location param1 param2 contact))
              (Vec3.scale (calcForce.f env param1 param2 contact) contact.normal)
              (env.applyForceToBodyPoint contact.firstBody
                (env.findStationAtGroundPoint contact.firstBody
                  (calcForce.location param1 param2 contact))
                (Vec3.scale (-(calcForce.f env param1 param2 contact)) contact.normal)
                bodyForces))
      ∧ Vec3.add (Vec3.scale (-(calcForce.f env param1 param2 contact)) contact.normal)
          (Vec3.scale (calcForce.f env param1 param2 contact) contact.normal) = Vec3.zero
      ∧ Vec3.scale (-(calcForce.f env param1 param2 contact)) contact.normal
          = Vec3.scale (-1) (Vec3.scale (calcForce.f env param1 param2 contact) contact.normal) := by
  refine ⟨?_, ?_, ?_⟩
  · rw [iteration_of_ok env self self1 self2 bodyForces contact param1 param2 h1 h2]
    have hf1 : calcForce.f env param1 param2 contact > 0 := hf
    rw [if_pos hf1]
    rfl
  · simp [Vec3.add, Vec3.scale, Vec3.zero]
  · simp [Vec3.scale]

/-- C2 at a concrete contact: bodies of parameters `(2, 1)` approaching with normal velocity
`1`, where `f = 10/3`; the log receives `(0, 0, -10/3)` on body `0`, then `(0, 0, 10/3)` on
body `1`. -/
theorem calcForce_positive_applies_opposite_forces_witness :
    calcForce.iteration Examples.env Examples.model [] Examples.approaching
      = (.ok (), Examples.model,
          [(0, ⟨0, 0, 0⟩, ⟨0, 0, -10 / 3⟩), (1, ⟨0, 0, 0⟩, ⟨0, 0, 10 / 3⟩)]) := by
  have h := (calcForce_positive_applies_opposite_forces Examples.env Examples.model
    Examples.model Examples.model [] Examples.approaching ⟨2, 1⟩ ⟨2, 1⟩ rfl rfl
    (by norm_num [calcForce.fH, calcForce.c, calcForce.v, calcForce.k, calcForce.s1,
      calcForce.s2, calcForce.curvature, calcForce.station1, calcForce.station2,
      calcForce.location, Vec3.dot, Vec3.sub, Vec3.add, Vec3.scale, Examples.env,
      Examples.approaching])).1
  rw [h]
  norm_num [calcForce.f, calcForce.fH, calcForce.c, calcForce.v, calcForce.k, calcForce.s1,
      calcForce.s2, calcForce.curvature, calcForce.station1, calcForce.station2,
      calcForce.location, Vec3.dot, Vec3.sub, Vec3.add, Vec3.scale, Examples.env,
      Examples.approaching]

/-- C3: for a valid body index, `setBodyParameters(i, s, d)` returns, and `getParameters(i)`
on the resulting state returns exactly `(s, d)`, whatever the storage length was. -/
theorem getParameters_setBodyParameters_same (self : HuntCrossleyForceImpl R) (i : Int)
    (s d : R) (h0 : 0 ≤ i) (h1 : i < self.numBodies) :
    (setBodyParameters self i s d).1 = .ok ()
      ∧ (getParameters (setBodyParameters self i s d).2 i).1 = .ok ⟨s, d⟩ := by
  rw [setBodyParameters_of_valid self i s d h0 h1]
  refine ⟨rfl, ?_⟩
  simp only
  rw [getParameters_value _ _ i h0 h1, getD_set_grown_self]

/-- C3 on a newly constructed model of three bodies: index `2` is past the (empty) storage. -/
theorem getParameters_setBodyParameters_same_witness :
    (setBodyParameters (new 3 : HuntCrossleyForceImpl ℚ) 2 5 7).1 = .ok ()
      ∧ (getParameters (setBodyParameters (new 3 : HuntCrossleyForceImpl ℚ) 2 5 7).2 2).1
        = .ok ⟨5, 7⟩ :=
  getParameters_setBodyParameters_same (new 3) 2 5 7 (by decide) (by decide)

/-- C4: for valid body indices `i ≠ j`, `setBodyParameters(i, s, d)` does not change what
`getParameters(j)` returns, and every entry stored before the call at a slot other than `i` is
still stored, unchanged, at the same slot after it (also when the storage had to grow). -/
theorem getParameters_setBodyParameters_other (self : HuntCrossleyForceImpl R) (i j : Int)
    (s d : R) (hi0 : 0 ≤ i) (hi1 : i < self.numBodies) (hj0 : 0 ≤ j) (hj1 : j < self.numBodies)
    (hij : i ≠ j) :
    (getParameters (setBodyParameters self i s d).2 j).1 = (getParameters self j).1
      ∧ ∀ n : Nat, n < self.parameters.length → n ≠ i.toNat →
          (setBodyParameters self i s d).2.parameters[n]? = self.parameters[n]? := by
  rw [setBodyParameters_of_valid self i s d hi0 hi1]
  refine ⟨?_, ?_⟩
  · simp only
    rw [getParameters_of_valid self j hj0 hj1, getParameters_value _ _ j hj0 hj1,
      getD_set_grown_other _ _ _ _ (by omega)]
  · intro n hn hne
    simp only
    rw [List.getElem?_set_ne (Ne.symm hne), List.getElem?_append_left hn]

/-- C4 on a model holding `(1, 1)` at slot `0`: setting index `2` grows the storage and slot
`0` still reads `(1, 1)`. -/
theorem getParameters_setBodyParameters_other_witness :
    (getParameters (setBodyParameters (⟨3, [⟨1, 1⟩]⟩ : HuntCrossleyForceImpl ℚ) 2 5 7).2 0).1
        = (getParameters (⟨3, [⟨1, 1⟩]⟩ : HuntCrossleyForceImpl ℚ) 0).1
      ∧ (setBodyParameters (⟨3, [⟨1, 1⟩]⟩ : HuntCrossleyForceImpl ℚ) 2 5 7).2.parameters[0]?
          = ([⟨1, 1⟩] : List (Parameters ℚ))[0]? :=
  ⟨(getParameters_setBodyParameters_other ⟨3, [⟨1, 1⟩]⟩ 2 0 5 7 (by decide) (by decide)
      (by decide) (by decide) (by decide)).1,
    (getParameters_setBodyParameters_other ⟨3, [⟨1, 1⟩]⟩ 2 0 5 7 (by decide) (by decide)
      (by decide) (by decide) (by decide)).2 0 (by decide) (by decide)⟩

/-- C5: for a body index out of range (`bodyIndex < 0` or `bodyIndex ≥ numBodies`) each of
`setBodyParameters`, `getParameters` and `updParameters` ends with the assertion failure
instead of a value, and the model state, the stored collection included, is the state before
the call. -/
theorem accessors_fail_out_of_range (self : HuntCrossleyForceImpl R) (i : Int) (s d : R)
    (h : i < 0 ∨ self.numBodies ≤ i) :
    setBodyParameters self i s d = (.error .assertionFailed, self)
      ∧ getParameters self i = (.error .assertionFailed, self)
      ∧ updParameters self i = (.error .assertionFailed, self) :=
  ⟨setBodyParameters_of_invalid self i s d h, getParameters_of_invalid self i h,
    updParameters_of_invalid self i h⟩

/-- C5 at index `2` of a model of two bodies. -/
theorem accessors_fail_out_of_range_witness :
    setBodyParameters Examples.model 2 5 7 = (.error .assertionFailed, Examples.model)
      ∧ getParameters Examples.model 2 = (.error .assertionFailed, Examples.model)
      ∧ updParameters Examples.model 2 = (.error .assertionFailed, Examples.model) :=
  accessors_fail_out_of_range Examples.model 2 5 7 (Or.inr (by decide))

/-- C6: when the relative velocity has no component along the normal (`v·normal = 0`) the
signed magnitude `f` is the elastic magnitude `fH`, and
`fH = (4/3)*k*depth*sqrt((radius²/depth)*k*depth)` with `k = p1.stiffness*s1`.  For `k = 1000`,
`depth = 0.01` and `radius = 0.05` that value is
`(4/3)*1000*0.01*sqrt((0.05²/0.01)*1000*0.01)`. -/
theorem calcForce_elastic_at_zero_normal_velocity (env : Collaborators R S)
    (param1 param2 : Parameters R) (contact : Contact R)
    (hv : Vec3.dot (calcForce.v env param1 param2 contact) contact.normal = 0) :
    calcForce.f env param1 param2 contact = calcForce.fH env param1 param2 contact
      ∧ calcForce.fH env param1 param2 contact
        = (4 / 3) * (param1.stiffness * calcForce.s1 param1 param2) * contact.depth
          * env.sqrt ((contact.radius ^ 2 / contact.depth)
              * (param1.stiffness * calcForce.s1 param1 param2) * contact.depth)
      ∧ (param1.stiffness * calcForce.s1 param1 param2 = 1000 → contact.depth = 0.01 →
          contact.radius = 0.05 →
          calcForce.f env param1 param2 contact
            = (4 / 3) * 1000 * 0.01 * env.sqrt ((0.05 ^ 2 / 0.01) * 1000 * 0.01)) := by
  have hf : calcForce.f env param1 param2 contact = calcForce.fH env param1 param2 contact := by
    unfold calcForce.f
    rw [hv]
    ring
  have hfH : calcForce.fH env param1 param2 contact
      = (4 / 3) * (param1.stiffness * calcForce.s1 param1 param2) * contact.depth
        * env.sqrt ((contact.radius ^ 2 / contact.depth)
            * (param1.stiffness * calcForce.s1 param1 param2) * contact.depth) := by
    unfold calcForce.fH calcForce.curvature calcForce.k
    rw [pow_two]
    norm_num
  refine ⟨hf, hfH, ?_⟩
  intro hk hd hr
  rw [hf, hfH, hk, hd, hr]

/-- C6 at a concrete contact: bodies of stiffness `2000`, so `k = 1000`, with depth `0.01`,
radius `0.05` and a normal orthogonal to the relative velocity. -/
theorem calcForce_elastic_at_zero_normal_velocity_witness :
    calcForce.f Examples.env ⟨2000, 1⟩ ⟨2000, 1⟩ Examples.sliding
      = (4 / 3) * 1000 * 0.01 * Examples.env.sqrt ((0.05 ^ 2 / 0.01) * 1000 * 0.01) :=
  (calcForce_elastic_at_zero_normal_velocity Examples.env ⟨2000, 1⟩ ⟨2000, 1⟩ Examples.sliding
    (by norm_num [calcForce.v, calcForce.station1, calcForce.station2, Vec3.dot, Vec3.sub,
      Examples.env, Examples.sliding])).2.2
    (by norm_num [calcForce.s1]) (by norm_num [Examples.sliding])
    (by norm_num [Examples.sliding])

/-- C7 fails for equal stiffnesses that are zero: `s1 = 0/(0 + 0)` is not `0.5` (in this model
the quotient is `0`; in IEEE arithmetic it is NaN), `s2` is not `0.5`, and the adjusted contact
point is not the contact location. -/
theorem calcForce_equal_zero_stiffness_counterexample :
    (⟨0, 0⟩ : Parameters ℚ).stiffness = (⟨0, 0⟩ : Parameters ℚ).stiffness
      ∧ calcForce.s1 (⟨0, 0⟩ : Parameters ℚ) ⟨0, 0⟩ ≠ 0.5
      ∧ calcForce.s2 (⟨0, 0⟩ : Parameters ℚ) ⟨0, 0⟩ ≠ 0.5
      ∧ calcForce.location (⟨0, 0⟩ : Parameters ℚ) ⟨0, 0⟩ Examples.approaching
          ≠ Examples.approaching.location := by
  refine ⟨rfl, ?_, ?_, ?_⟩
  · norm_num [calcForce.s1]
  · norm_num [calcForce.s1, calcForce.s2]
  · norm_num [calcForce.location, calcForce.s1, Vec3.add, Vec3.scale, Examples.approaching]

/-- C7, amended: when the two bodies of a contact have equal stiffness that is not zero, the
weights are `s1 = s2 = 0.5` and the adjusted contact point `location + depth*(0.5 - s1)*normal`
is the contact location, for every depth and normal. -/
theorem calcForce_equal_stiffness (param1 param2 : Parameters R) (contact : Contact R)
    (heq : param1.stiffness = param2.stiffness) (hne : param1.stiffness ≠ 0) :
    calcForce.s1 param1 param2 = 0.5
      ∧ calcForce.s2 param1 param2 = 0.5
      ∧ calcForce.location param1 param2 contact = contact.location := by
  have h1 : calcForce.s1 param1 param2 = 0.5 := by
    unfold calcForce.s1
    have h2 : param1.stiffness + param1.stiffness ≠ 0 := by
      rw [← two_mul]
      exact mul_ne_zero two_ne_zero hne
    rw [← heq, div_eq_iff h2]
    norm_num
    ring
  refine ⟨h1, ?_, ?_⟩
  · unfold calcForce.s2
    rw [h1]
    norm_num
  · unfold calcForce.location
    rw [h1]
    simp [Vec3.add, Vec3.scale]

/-- C7, amended, at stiffness `2` on both bodies. -/
theorem calcForce_equal_stiffness_witness :
    calcForce.s1 (⟨2, 1⟩ : Parameters ℚ) ⟨2, 3⟩ = 0.5
      ∧ calcForce.s2 (⟨2, 1⟩ : Parameters ℚ) ⟨2, 3⟩ = 0.5
      ∧ calcForce.location (⟨2, 1⟩ : Parameters ℚ) ⟨2, 3⟩ Examples.approaching
          = Examples.approaching.location :=
  calcForce_equal_stiffness ⟨2, 1⟩ ⟨2, 3⟩ Examples.approaching rfl (by norm_num)

/-- C9: `calcPotentialEnergy` returns exactly `0` for every state and every model
configuration. -/
theorem calcPotentialEnergy_eq_zero {σ : Type} (self : HuntCrossleyForceImpl R) (state : σ) :
    calcPotentialEnergy self state = 0 := rfl

/-- C10: on a model that starts newly constructed, after any sequence of calls in which a
valid index `i` is never set, `getParameters(i)` returns the default `(0, 0)`.  The sequence
may set or read other indices and run `calcForce`, so `i` may be past the storage or a filler
slot created when a higher index was set or read. -/
theorem getParameters_never_set_default (env : Collaborators R S) (numBodies : Int)
    (bodyForces : S) (calls : List (Call R)) (i : Int) (h0 : 0 ≤ i) (h1 : i < numBodies)
    (hunset : ∀ s d, Call.setBodyParameters i s d ∉ calls) :
    (getParameters (runCalls env (new numBodies) bodyForces calls).1 i).1 = .ok ⟨0, 0⟩ := by
  have hk := runCalls_keeps env i h0 calls (new numBodies) bodyForces hunset
  have hn : i < (runCalls env (new numBodies) bodyForces calls).1.numBodies := by
    rw [hk.1]; exact h1
  rw [getParameters_of_valid _ i h0 hn]
  simp only
  rw [hk.2]
  rfl

/-- C10 at the filler index `1` of a model of three bodies on which index `2` was set, index
`0` was read and `calcForce` ran on a contact between bodies `0` and `2`. -/
theorem getParameters_never_set_default_witness :
    (getParameters (runCalls Examples.env (new 3) [] Examples.calls).1 1).1 = .ok ⟨0, 0⟩ :=
  getParameters_never_set_default Examples.env 3 [] Examples.calls 1 (by decide) (by decide)
    (by simp [Examples.calls])

end HuntCrossleyForceImpl

end SimTK

/-! ## Stability of reads and the partition weights -/

namespace SimTK

namespace HuntCrossleyForceImpl

variable {R S : Type} [LinearOrderedField R]

/-- C13: reads are stable.  For valid body indices `i` and `j`, a call `getParameters(i)`,
which leaves a storage of length `max(length, i + 1)`, does not change the value a later
`getParameters(j)` returns; a second `getParameters(i)` returns the same parameters as the
first and leaves the model state, the storage included, exactly as the first call left it. -/
theorem getParameters_reads_stable (self : HuntCrossleyForceImpl R) (i j : Int)
    (hi0 : 0 ≤ i) (hi1 : i < self.numBodies) (hj0 : 0 ≤ j) (hj1 : j < self.numBodies) :
    (getParameters (getParameters self i).2 j).1 = (getParameters self j).1
      ∧ (getParameters self i).2.parameters.length = max self.parameters.length (i.toNat + 1)
      ∧ (getParameters (getParameters self i).2 i).1 = (getParameters self i).1
      ∧ (getParameters (getParameters self i).2 i).2 = (getParameters self i).2 := by
  have g := getParameters_grows self i
  have hlen : (getParameters self i).2.parameters.length
      = max self.parameters.length (i.toNat + 1) := by
    rw [getParameters_of_valid self i hi0 hi1]
    simp only [List.length_append, List.length_replicate]
    omega
  refine ⟨g.getParameters_eq j hj0 hj1, hlen, g.getParameters_eq i hi0 hi1, ?_⟩
  apply getParameters_stored _ i hi0
  · rw [hlen]; omega
  · rw [g.1]; exact hi1

/-- C13 on a model of three bodies that stores one entry: reading index `2` grows the storage
to three entries, index `0` still reads `(2, 1)`, and a second read of index `2` changes
nothing. -/
theorem getParameters_reads_stable_witness :
    (getParameters (getParameters Examples.short 2).2 0).1 = (getParameters Examples.short 0).1
      ∧ (getParameters Examples.short 2).2.parameters.length
          = max Examples.short.parameters.length ((2 : Int).toNat + 1)
      ∧ (getParameters (getParameters Examples.short 2).2 2).1
          = (getParameters Examples.short 2).1
      ∧ (getParameters (getParameters Examples.short 2).2 2).2
          = (getParameters Examples.short 2).2 :=
  getParameters_reads_stable Examples.short 2 0 (by decide) (by decide) (by decide) (by decide)

/-- The weight `s1` written with the difference of the stiffnesses. -/
theorem half_sub_s1 (param1 param2 : Parameters R)
    (hsum : param1.stiffness + param2.stiffness ≠ 0) :
    0.5 - calcForce.s1 param1 param2
      = (param1.stiffness - param2.stiffness) / (2 * (param1.stiffness + param2.stiffness)) := by
  unfold calcForce.s1
  field_simp
  norm_num
  ring

/-- C15: for non-negative stiffnesses that are not both zero, `s1` lies in `[0, 1]` and
`s1 + s2 = 1`.  The adjusted contact point is `location + (depth*(0.5 - s1))*normal`, and the
coefficient of the normal has absolute value at most `depth/2` for the depth of a contact,
which is not negative (it is at most `|depth|/2` for any number in the place of the depth).
The factor `0.5 - s1` is positive exactly when `p1.stiffness > p2.stiffness`, negative exactly
when `p1.stiffness < p2.stiffness`, and zero exactly when the stiffnesses are equal. -/
theorem calcForce_partition_weights (param1 param2 : Parameters R) (contact : Contact R)
    (h1 : 0 ≤ param1.stiffness) (h2 : 0 ≤ param2.stiffness)
    (hne : ¬ (param1.stiffness = 0 ∧ param2.stiffness = 0)) :
    (0 ≤ calcForce.s1 param1 param2 ∧ calcForce.s1 param1 param2 ≤ 1)
      ∧ calcForce.s1 param1 param2 + calcForce.s2 param1 param2 = 1
      ∧ calcForce.location param1 param2 contact
          = Vec3.add contact.location
              (Vec3.scale (contact.depth * (0.5 - calcForce.s1 param1 param2)) contact.normal)
      ∧ |contact.depth * (0.5 - calcForce.s1 param1 param2)| ≤ |contact.depth| / 2
      ∧ (0 ≤ contact.depth →
          |contact.depth * (0.5 - calcForce.s1 param1 param2)| ≤ contact.depth / 2)
      ∧ (0 < 0.5 - calcForce.s1 param1 param2 ↔ param1.stiffness > param2.stiffness)
      ∧ (0.5 - calcForce.s1 param1 param2 < 0 ↔ param1.stiffness < param2.stiffness)
      ∧ (0.5 - calcForce.s1 param1 param2 = 0 ↔ param1.stiffness = param2.stiffness) := by
  have hpos : 0 < param1.stiffness + param2.stiffness := by
    rcases lt_or_eq_of_le h1 with h | h
    · linarith
    · rcases lt_or_eq_of_le h2 with h' | h'
      · linarith
      · exact absurd ⟨h.symm, h'.symm⟩ hne
  have hs0 : 0 ≤ calcForce.s1 param1 param2 := div_nonneg h2 hpos.le
  have hs1 : calcForce.s1 param1 param2 ≤ 1 := by
    unfold calcForce.s1
    rw [div_le_one hpos]
    linarith
  have hhalf := half_sub_s1 param1 param2 hpos.ne'
  have hden : 0 < 2 * (param1.stiffness + param2.stiffness) := by linarith
  have habs : |0.5 - calcForce.s1 param1 param2| ≤ 1 / 2 := by
    rw [abs_le]
    constructor
    · norm_num
      linarith
    · norm_num
      linarith
  have hbound : |contact.depth * (0.5 - calcForce.s1 param1 param2)| ≤ |contact.depth| / 2 := by
    rw [abs_mul]
    calc |contact.depth| * |0.5 - calcForce.s1 param1 param2|
        ≤ |contact.depth| * (1 / 2) := mul_le_mul_of_nonneg_left habs (abs_nonneg _)
      _ = |contact.depth| / 2 := by ring
  refine ⟨⟨hs0, hs1⟩, ?_, rfl, hbound, ?_, ?_, ?_, ?_⟩
  · unfold calcForce.s2
    ring
  · intro hd
    rw [abs_of_nonneg hd] at hbound
    exact hbound
  · rw [hhalf, div_pos_iff_of_pos_right hden]
    exact sub_pos
  · rw [hhalf, div_neg_iff]
    constructor
    · rintro (⟨_, h⟩ | ⟨h, _⟩)
      · linarith
      · linarith
    · intro h
      exact Or.inr ⟨by linarith, hden⟩
  · rw [hhalf, div_eq_zero_iff]
    constructor
    · rintro (h | h)
      · linarith
      · linarith
    · intro h
      exact Or.inl (by linarith)

/-- C15 at stiffnesses `3` and `1` with depth `1`: `s1 = 1/4`, and the coefficient of the
normal is `1/4`. -/
theorem calcForce_partition_weights_witness :
    (0 ≤ calcForce.s1 (⟨3, 0⟩ : Parameters ℚ) ⟨1, 0⟩
        ∧ calcForce.s1 (⟨3, 0⟩ : Parameters ℚ) ⟨1, 0⟩ ≤ 1)
      ∧ |Examples.approaching.depth * (0.5 - calcForce.s1 (⟨3, 0⟩ : Parameters ℚ) ⟨1, 0⟩)|
          ≤ Examples.approaching.depth / 2
      ∧ 0 < 0.5 - calcForce.s1 (⟨3, 0⟩ : Parameters ℚ) ⟨1, 0⟩ := by
  have h := calcForce_partition_weights (⟨3, 0⟩ : Parameters ℚ) ⟨1, 0⟩ Examples.approaching
    (by norm_num) (by norm_num) (by norm_num)
  exact ⟨h.1, h.2.2.2.2.1 (by norm_num [Examples.approaching]),
    h.2.2.2.2.2.1.mpr (by norm_num)⟩

end HuntCrossleyForceImpl

end SimTK

/-! ## Sign condition and relabelling -/

namespace SimTK

namespace HuntCrossleyForceImpl

variable {R S : Type} [LinearOrderedField R]

/-- The combined dissipation is not negative when the stiffnesses and dissipations are not. -/
theorem c_nonneg (param1 param2 : Parameters R)
    (h1 : 0 ≤ param1.stiffness) (h2 : 0 ≤ param2.stiffness)
    (hne : ¬ (param1.stiffness = 0 ∧ param2.stiffness = 0))
    (d1 : 0 ≤ param1.dissipation) (d2 : 0 ≤ param2.dissipation) :
    0 ≤ calcForce.c param1 param2 := by
  have hpos : 0 < param1.stiffness + param2.stiffness := by
    rcases lt_or_eq_of_le h1 with h | h
    · linarith
    · rcases lt_or_eq_of_le h2 with h' | h'
      · linarith
      · exact absurd ⟨h.symm, h'.symm⟩ hne
  have hs0 : 0 ≤ calcForce.s1 param1 param2 := div_nonneg h2 hpos.le
  have hs1 : calcForce.s1 param1 param2 ≤ 1 := by
    unfold calcForce.s1
    rw [div_le_one hpos]
    linarith
  unfold calcForce.c calcForce.s2
  have := mul_nonneg d1 hs0
  have := mul_nonneg d2 (sub_nonneg.mpr hs1)
  linarith

/-- C16: sign condition of the force law.  For non-negative stiffnesses not both zero,
non-negative dissipations and `fH > 0`, the branch `f > 0` of `calcForce` is taken exactly when
`1 + 1.5*c*(v·normal) > 0`.  In that case the iteration makes the two calls of
`applyForceToBodyPoint`, with `-f*normal` on the first body at its station and then `f*normal`
on the second body at its station; otherwise it makes no call and returns the sink as it was.
When `v·normal ≥ 0` the two calls are made and `f ≥ fH`.  A contact with `f ≤ 0` has `c > 0` and
`v·normal ≤ -1/(1.5*c)`. -/
theorem calcForce_sign_condition (env : Collaborators R S)
    (self self1 self2 : HuntCrossleyForceImpl R) (bodyForces : S) (contact : Contact R)
    (param1 param2 : Parameters R)
    (hr1 : getParameters self contact.firstBody = (.ok param1, self1))
    (hr2 : getParameters self1 contact.secondBody = (.ok param2, self2))
    (h1 : 0 ≤ param1.stiffness) (h2 : 0 ≤ param2.stiffness)
    (hne : ¬ (param1.stiffness = 0 ∧ param2.stiffness = 0))
    (d1 : 0 ≤ param1.dissipation) (d2 : 0 ≤ param2.dissipation)
    (hfH : 0 < calcForce.fH env param1 param2 contact) :
    (calcForce.f env param1 param2 contact > 0 ↔
        1 + 1.5 * calcForce.c param1 param2
          * Vec3.dot (calcForce.v env param1 param2 contact) contact.normal > 0)
      ∧ (1 + 1.5 * calcForce.c param1 param2
            * Vec3.dot (calcForce.v env param1 param2 contact) contact.normal > 0 →
          calcForce.iteration env self bodyForces contact
            = (.ok (), self2,
                env.applyForceToBodyPoint contact.secondBody
                  (env.findStationAtGroundPoint contact.secondBody
                    (calcForce.location param1 param2 contact))
                  (Vec3.scale (calcForce.f env param1 param2 contact) contact.normal)
                  (env.applyForceToBodyPoint contact.firstBody
                    (env.findStationAtGroundPoint contact.firstBody
                      (calcForce.location param1 param2 contact))
                    (Vec3.scale (-(calcForce.f env param1 param2 contact)) contact.normal)
                    bodyForces)))
      ∧ (¬ 1 + 1.5 * calcForce.c param1 param2
            * Vec3.dot (calcForce.v env param1 param2 contact) contact.normal > 0 →
          calcForce.iteration env self bodyForces contact = (.ok (), self2, bodyForces))
      ∧ (0 ≤ Vec3.dot (calcForce.v env param1 param2 contact) contact.normal →
          calcForce.fH env param1 param2 contact ≤ calcForce.f env param1 param2 contact
            ∧ calcForce.iteration env self bodyForces contact
              = (.ok (), self2,
                env.applyForceToBodyPoint contact.secondBody
                  (env.findStationAtGroundPoint contact.secondBody
                    (calcForce.location param1 param2 contact))
                  (Vec3.scale (calcForce.f env param1 param2 contact) contact.normal)
                  (env.applyForceToBodyPoint contact.firstBody
                    (env.findStationAtGroundPoint contact.firstBody
                      (calcForce.location param1 param2 contact))
                    (Vec3.scale (-(calcForce.f env param1 param2 contact)) contact.normal)
                    bodyForces)))
      ∧ (calcForce.f env param1 param2 contact ≤ 0 →
          0 < calcForce.c param1 param2
            ∧ Vec3.dot (calcForce.v env param1 param2 contact) contact.normal
              ≤ -1 / (1.5 * calcForce.c param1 param2)) := by
  have hc := c_nonneg param1 param2 h1 h2 hne d1 d2
  have hiter := iteration_of_ok env self self1 self2 bodyForces contact param1 param2 hr1 hr2
  have hiff : calcForce.f env param1 param2 contact > 0 ↔
      1 + 1.5 * calcForce.c param1 param2
        * Vec3.dot (calcForce.v env param1 param2 contact) contact.normal > 0 := by
    unfold calcForce.f
    exact mul_pos_iff_of_pos_left hfH
  have happly : 1 + 1.5 * calcForce.c param1 param2
        * Vec3.dot (calcForce.v env param1 param2 contact) contact.normal > 0 →
      calcForce.iteration env self bodyForces contact
        = (.ok (), self2,
                env.applyForceToBodyPoint contact.secondBody
                  (env.findStationAtGroundPoint contact.secondBody
                    (calcForce.location param1 param2 contact))
                  (Vec3.scale (calcForce.f env param1 param2 contact) contact.normal)
                  (env.applyForceToBodyPoint contact.firstBody
                    (env.findStationAtGroundPoint contact.firstBody
                      (calcForce.location param1 param2 contact))
                    (Vec3.scale (-(calcForce.f env param1 param2 contact)) contact.normal)
                    bodyForces)) := by
    intro h
    rw [hiter, if_pos (hiff.mpr h)]
    rfl
  refine ⟨hiff, happly, ?_, ?_, ?_⟩
  · intro h
    rw [hiter, if_neg (fun hf => h (hiff.mp hf))]
  · intro hv
    have hge : 1 ≤ 1 + 1.5 * calcForce.c param1 param2
        * Vec3.dot (calcForce.v env param1 param2 contact) contact.normal := by
      have : 0 ≤ 1.5 * calcForce.c param1 param2
          * Vec3.dot (calcForce.v env param1 param2 contact) contact.normal :=
        mul_nonneg (mul_nonneg (by norm_num) hc) hv
      linarith
    refine ⟨?_, happly (by linarith)⟩
    unfold calcForce.f
    calc calcForce.fH env param1 param2 contact
        = calcForce.fH env param1 param2 contact * 1 := (mul_one _).symm
      _ ≤ _ := mul_le_mul_of_nonneg_left hge hfH.le
  · intro hf
    have hle : 1 + 1.5 * calcForce.c param1 param2
        * Vec3.dot (calcForce.v env param1 param2 contact) contact.normal ≤ 0 := by
      by_contra hcon
      exact absurd (hiff.mpr (not_le.mp hcon)) (not_lt.mpr hf)
    have hcpos : 0 < calcForce.c param1 param2 := by
      rcases lt_or_eq_of_le hc with h | h
      · exact h
      · rw [← h] at hle
        norm_num at hle
    refine ⟨hcpos, ?_⟩
    have h15 : (0 : R) < 1.5 * calcForce.c param1 param2 := mul_pos (by norm_num) hcpos
    rw [le_div_iff₀ h15]
    linarith

/-- C16 at two concrete contacts between bodies of parameters `(2, 1)`, both with `fH = 4/3`.
Approaching with normal velocity `1` the factor is `5/2`, and the log receives `(0, 0, -10/3)`
on body `0`, then `(0, 0, 10/3)` on body `1`.  Separating with normal velocity `-1` the factor
is `-1/2`, and the log stays empty. -/
theorem calcForce_sign_condition_witness :
    (1 + 1.5 * calcForce.c (⟨2, 1⟩ : Parameters ℚ) ⟨2, 1⟩
        * Vec3.dot (calcForce.v Examples.env ⟨2, 1⟩ ⟨2, 1⟩ Examples.approaching)
            Examples.approaching.normal = 5 / 2
      ∧ calcForce.iteration Examples.env Examples.model [] Examples.approaching
        = (.ok (), Examples.model,
            [(0, ⟨0, 0, 0⟩, ⟨0, 0, -10 / 3⟩), (1, ⟨0, 0, 0⟩, ⟨0, 0, 10 / 3⟩)]))
      ∧ (1 + 1.5 * calcForce.c (⟨2, 1⟩ : Parameters ℚ) ⟨2, 1⟩
          * Vec3.dot (calcForce.v Examples.env ⟨2, 1⟩ ⟨2, 1⟩ Examples.separating)
              Examples.separating.normal = -1 / 2
        ∧ calcForce.iteration Examples.env Examples.model [] Examples.separating
          = (.ok (), Examples.model, [])) := by
  have happ := calcForce_sign_condition Examples.env Examples.model Examples.model
    Examples.model [] Examples.approaching ⟨2, 1⟩ ⟨2, 1⟩ rfl rfl (by norm_num) (by norm_num)
    (by norm_num) (by norm_num) (by norm_num)
    (by norm_num [calcForce.fH, calcForce.k, calcForce.s1, calcForce.curvature, Examples.env,
      Examples.approaching])
  have hsep := calcForce_sign_condition Examples.env Examples.model Examples.model
    Examples.model [] Examples.separating ⟨2, 1⟩ ⟨2, 1⟩ rfl rfl (by norm_num) (by norm_num)
    (by norm_num) (by norm_num) (by norm_num)
    (by norm_num [calcForce.fH, calcForce.k, calcForce.s1, calcForce.curvature, Examples.env,
      Examples.separating])
  have hpos : 1 + 1.5 * calcForce.c (⟨2, 1⟩ : Parameters ℚ) ⟨2, 1⟩
      * Vec3.dot (calcForce.v Examples.env ⟨2, 1⟩ ⟨2, 1⟩ Examples.approaching)
          Examples.approaching.normal = 5 / 2 := by
    norm_num [calcForce.c, calcForce.v, calcForce.s1, calcForce.s2, calcForce.station1,
      calcForce.station2, calcForce.location, Vec3.dot, Vec3.sub, Vec3.add, Vec3.scale,
      Examples.env, Examples.approaching]
  have hneg : 1 + 1.5 * calcForce.c (⟨2, 1⟩ : Parameters ℚ) ⟨2, 1⟩
      * Vec3.dot (calcForce.v Examples.env ⟨2, 1⟩ ⟨2, 1⟩ Examples.separating)
          Examples.separating.normal = -1 / 2 := by
    norm_num [calcForce.c, calcForce.v, calcForce.s1, calcForce.s2, calcForce.station1,
      calcForce.station2, calcForce.location, Vec3.dot, Vec3.sub, Vec3.add, Vec3.scale,
      Examples.env, Examples.separating]
  refine ⟨⟨hpos, ?_⟩, ⟨hneg, hsep.2.2.1 (by rw [hneg]; norm_num)⟩⟩
  rw [happ.2.1 (by rw [hpos]; norm_num)]
  norm_num [calcForce.f, calcForce.fH, calcForce.c, calcForce.v, calcForce.k, calcForce.s1,
    calcForce.s2, calcForce.curvature, calcForce.station1, calcForce.station2,
    calcForce.location, Vec3.dot, Vec3.sub, Vec3.add, Vec3.scale, Examples.env,
    Examples.approaching]

/-- C17: relabelling symmetry.  For stiffnesses whose sum is not zero, which for non-negative
stiffnesses says that they are not both zero, exchanging the two bodies and their parameters and negating the normal
gives the same combined stiffness `k = p1.stiffness*p2.stiffness/(p1.stiffness + p2.stiffness)`,
the same combined dissipation `c`, the same adjusted contact point, the same `fH` and the same
`f`; the stations are exchanged with the bodies, so each body receives the same force vector
at the same station. -/
theorem calcForce_relabel_symmetric (env : Collaborators R S) (param1 param2 : Parameters R)
    (contact : Contact R) (hsum : param1.stiffness + param2.stiffness ≠ 0) :
    calcForce.k param1 param2
        = param1.stiffness * param2.stiffness / (param1.stiffness + param2.stiffness)
      ∧ calcForce.k param2 param1 = calcForce.k param1 param2
      ∧ calcForce.c param2 param1 = calcForce.c param1 param2
      ∧ calcForce.location param2 param1 contact.relabel
          = calcForce.location param1 param2 contact
      ∧ calcForce.fH env param2 param1 contact.relabel = calcForce.fH env param1 param2 contact
      ∧ calcForce.f env param2 param1 contact.relabel = calcForce.f env param1 param2 contact
      ∧ (contact.relabel.firstBody = contact.secondBody
          ∧ calcForce.station1 env param2 param1 contact.relabel
              = calcForce.station2 env param1 param2 contact
          ∧ Vec3.scale (-(calcForce.f env param2 param1 contact.relabel)) contact.relabel.normal
              = Vec3.scale (calcForce.f env param1 param2 contact) contact.normal)
      ∧ (contact.relabel.secondBody = contact.firstBody
          ∧ calcForce.station2 env param2 param1 contact.relabel
              = calcForce.station1 env param1 param2 contact
          ∧ Vec3.scale (calcForce.f env param2 param1 contact.relabel) contact.relabel.normal
              = Vec3.scale (-(calcForce.f env param1 param2 contact)) contact.normal) := by
  have hs : calcForce.s1 param2 param1 = 1 - calcForce.s1 param1 param2 := by
    unfold calcForce.s1
    rw [add_comm param2.stiffness param1.stiffness, eq_sub_iff_add_eq, ← add_div,
      div_self hsum]
  have hk : calcForce.k param2 param1 = calcForce.k param1 param2 := by
    unfold calcForce.k calcForce.s1
    rw [add_comm param2.stiffness param1.stiffness]
    ring
  have hc : calcForce.c param2 param1 = calcForce.c param1 param2 := by
    unfold calcForce.c calcForce.s2
    rw [hs]
    ring
  have hloc : calcForce.location param2 param1 contact.relabel
      = calcForce.location param1 param2 contact := by
    unfold calcForce.location
    rw [hs]
    simp only [Contact.relabel, Vec3.add, Vec3.scale, Vec3.neg, Vec3.mk.injEq]
    refine ⟨?_, ?_, ?_⟩ <;> norm_num <;> ring
  have hfH : calcForce.fH env param2 param1 contact.relabel
      = calcForce.fH env param1 param2 contact := by
    unfold calcForce.fH
    rw [hk]
    rfl
  have hst1 : calcForce.station1 env param2 param1 contact.relabel
      = calcForce.station2 env param1 param2 contact := by
    unfold calcForce.station1 calcForce.station2
    rw [hloc]
    rfl
  have hst2 : calcForce.station2 env param2 param1 contact.relabel
      = calcForce.station1 env param1 param2 contact := by
    unfold calcForce.station1 calcForce.station2
    rw [hloc]
    rfl
  have hdot : Vec3.dot (calcForce.v env param2 param1 contact.relabel) contact.relabel.normal
      = Vec3.dot (calcForce.v env param1 param2 contact) contact.normal := by
    unfold calcForce.v
    rw [hst1, hst2]
    simp only [Contact.relabel, Vec3.dot, Vec3.sub, Vec3.neg]
    ring
  have hf : calcForce.f env param2 param1 contact.relabel
      = calcForce.f env param1 param2 contact := by
    unfold calcForce.f
    rw [hfH, hc, hdot]
  refine ⟨?_, hk, hc, hloc, hfH, hf, ⟨rfl, hst1, ?_⟩, ⟨rfl, hst2, ?_⟩⟩
  · unfold calcForce.k calcForce.s1
    ring
  · rw [hf]
    simp [Contact.relabel, Vec3.scale, Vec3.neg]
  · rw [hf]
    simp [Contact.relabel, Vec3.scale, Vec3.neg]

/-- C17 at stiffnesses `3` and `1` with dissipations `1` and `2`: both labellings give
`k = 3/4` and `c = 7/4`. -/
theorem calcForce_relabel_symmetric_witness :
    calcForce.k (⟨3, 1⟩ : Parameters ℚ) ⟨1, 2⟩ = 3 * 1 / (3 + 1)
      ∧ calcForce.k (⟨1, 2⟩ : Parameters ℚ) ⟨3, 1⟩ = calcForce.k (⟨3, 1⟩ : Parameters ℚ) ⟨1, 2⟩
      ∧ calcForce.c (⟨1, 2⟩ : Parameters ℚ) ⟨3, 1⟩ = calcForce.c (⟨3, 1⟩ : Parameters ℚ) ⟨1, 2⟩
      ∧ calcForce.f Examples.env ⟨1, 2⟩ ⟨3, 1⟩ Examples.approaching.relabel
          = calcForce.f Examples.env ⟨3, 1⟩ ⟨1, 2⟩ Examples.approaching := by
  have h := calcForce_relabel_symmetric Examples.env ⟨3, 1⟩ ⟨1, 2⟩ Examples.approaching
    (by norm_num)
  exact ⟨h.1, h.2.1, h.2.2.1, h.2.2.2.2.2.1⟩

end HuntCrossleyForceImpl

end SimTK

/-! ## The elastic magnitude -/

namespace SimTK

namespace HuntCrossleyForceImpl

variable {R S : Type} [LinearOrderedField R]

/-- The argument of the square root in `fH` does not depend on a depth that is not zero. -/
theorem curvature_mul_k_mul_depth (param1 param2 : Parameters R) (contact : Contact R)
    (hdepth : contact.depth ≠ 0) :
    calcForce.curvature contact * calcForce.k param1 param2 * contact.depth
      = contact.radius * contact.radius * calcForce.k param1 param2 := by
  unfold calcForce.curvature
  field_simp

/-- C18: for `depth > 0` and `k ≥ 0`, with `sqrt` the square root on the non-negative numbers,
the elastic magnitude `(4/3)*k*depth*sqrt((radius²/depth)*k*depth)` is
`(4/3)*k*depth*|radius|*sqrt(k)`.  So `fH` is not negative, it is zero exactly when `k = 0` or
`radius = 0`, and it is linear in the depth: multiplying the depth by `t > 0` multiplies `fH`
by `t`. -/
theorem calcForce_hertz_linear_in_depth (env : Collaborators R S)
    (param1 param2 : Parameters R) (contact : Contact R)
    (hsqrt : ∀ x : R, 0 ≤ x → 0 ≤ env.sqrt x ∧ env.sqrt x * env.sqrt x = x)
    (hdepth : 0 < contact.depth) (hk : 0 ≤ calcForce.k param1 param2) :
    calcForce.fH env param1 param2 contact
        = (4 / 3) * calcForce.k param1 param2 * contact.depth * |contact.radius|
          * env.sqrt (calcForce.k param1 param2)
      ∧ 0 ≤ calcForce.fH env param1 param2 contact
      ∧ (calcForce.fH env param1 param2 contact = 0 ↔
          calcForce.k param1 param2 = 0 ∨ contact.radius = 0)
      ∧ ∀ t : R, 0 < t →
          calcForce.fH env param1 param2 { contact with depth := t * contact.depth }
            = t * calcForce.fH env param1 param2 contact := by
  have hrr : 0 ≤ contact.radius * contact.radius * calcForce.k param1 param2 :=
    mul_nonneg (mul_self_nonneg _) hk
  have hroot : env.sqrt (contact.radius * contact.radius * calcForce.k param1 param2)
      = |contact.radius| * env.sqrt (calcForce.k param1 param2) := by
    rw [← mul_self_inj (hsqrt _ hrr).1 (mul_nonneg (abs_nonneg _) (hsqrt _ hk).1),
      (hsqrt _ hrr).2]
    calc contact.radius * contact.radius * calcForce.k param1 param2
        = |contact.radius| * |contact.radius|
            * (env.sqrt (calcForce.k param1 param2) * env.sqrt (calcForce.k param1 param2)) := by
          rw [abs_mul_abs_self, (hsqrt _ hk).2]
      _ = _ := by ring
  have hform : ∀ c : Contact R, 0 < c.depth → c.radius = contact.radius →
      calcForce.fH env param1 param2 c
        = (4 / 3) * calcForce.k param1 param2 * c.depth * |contact.radius|
          * env.sqrt (calcForce.k param1 param2) := by
    intro c hc hr
    unfold calcForce.fH
    rw [curvature_mul_k_mul_depth param1 param2 c hc.ne', hr, hroot]
    norm_num
    ring
  have h1 := hform contact hdepth rfl
  have hsk : env.sqrt (calcForce.k param1 param2) = 0 ↔ calcForce.k param1 param2 = 0 := by
    constructor
    · intro h
      have := (hsqrt _ hk).2
      rw [h] at this
      simpa using this.symm
    · intro h
      have := (hsqrt _ hk).2
      rw [h] at this
      exact mul_self_eq_zero.mp (by rw [h]; exact this)
  refine ⟨h1, ?_, ?_, ?_⟩
  · rw [h1]
    exact mul_nonneg (mul_nonneg (mul_nonneg (mul_nonneg (by norm_num) hk) hdepth.le)
      (abs_nonneg _)) (hsqrt _ hk).1
  · rw [h1]
    constructor
    · intro h
      rcases mul_eq_zero.mp h with h | h
      · rcases mul_eq_zero.mp h with h | h
        · rcases mul_eq_zero.mp h with h | h
          · rcases mul_eq_zero.mp h with h | h
            · norm_num at h
            · exact Or.inl h
          · exact absurd h hdepth.ne'
        · exact Or.inr (abs_eq_zero.mp h)
      · exact Or.inl (hsk.mp h)
    · rintro (h | h)
      · rw [h]; simp
      · rw [h]; simp
  · intro t ht
    rw [hform { contact with depth := t * contact.depth } (mul_pos ht hdepth) rfl, h1]
    ring

/-- C18 over the real numbers with the real square root, at stiffness `2` on both bodies
(`k = 1`), depth `1` and radius `1`. -/
theorem calcForce_hertz_linear_in_depth_witness :
    calcForce.fH (⟨Real.sqrt, fun _ p => p, fun _ p => p, fun _ _ _ s => s, fun _ _ => ⟨0, 0⟩⟩ :
          Collaborators ℝ Unit) ⟨2, 1⟩ ⟨2, 1⟩ ⟨0, 1, ⟨0, 0, 0⟩, ⟨0, 0, 1⟩, 1, 1⟩
        = (4 / 3) * calcForce.k (⟨2, 1⟩ : Parameters ℝ) ⟨2, 1⟩ * 1 * |1|
          * Real.sqrt (calcForce.k (⟨2, 1⟩ : Parameters ℝ) ⟨2, 1⟩)
      ∧ 0 ≤ calcForce.fH (⟨Real.sqrt, fun _ p => p, fun _ p => p, fun _ _ _ s => s, fun _ _ => ⟨0, 0⟩⟩ :
          Collaborators ℝ Unit) ⟨2, 1⟩ ⟨2, 1⟩ ⟨0, 1, ⟨0, 0, 0⟩, ⟨0, 0, 1⟩, 1, 1⟩ := by
  have h := calcForce_hertz_linear_in_depth
    (⟨Real.sqrt, fun _ p => p, fun _ p => p, fun _ _ _ s => s, fun _ _ => ⟨0, 0⟩⟩ : Collaborators ℝ Unit)
    ⟨2, 1⟩ ⟨2, 1⟩ ⟨0, 1, ⟨0, 0, 0⟩, ⟨0, 0, 1⟩, 1, 1⟩
    (fun x hx => ⟨Real.sqrt_nonneg x, Real.mul_self_sqrt hx⟩)
    (by norm_num) (by norm_num [calcForce.k, calcForce.s1])
  exact ⟨h.1, h.2.1⟩

end HuntCrossleyForceImpl

end SimTK

/-! ## Accumulation over the contact list -/

namespace SimTK

namespace HuntCrossleyForceImpl

variable {R S : Type} [LinearOrderedField R]

/-- One iteration on a contact with valid body indices: it returns, the parameters it uses are
the ones `self` holds, and the storage only grows. -/
theorem iteration_of_valid (env : Collaborators R S) (self : HuntCrossleyForceImpl R)
    (bodyForces : S) (contact : Contact R)
    (h1 : 0 ≤ contact.firstBody ∧ contact.firstBody < self.numBodies)
    (h2 : 0 ≤ contact.secondBody ∧ contact.secondBody < self.numBodies) :
    ∃ self2, Grows self self2 ∧
      calcForce.iteration env self bodyForces contact
        = if calcForce.f env
              (self.parameters.getD contact.firstBody.toNat Parameters.default)
              (self.parameters.getD contact.secondBody.toNat Parameters.default) contact > 0 then
            (.ok (), self2, calcForce.applyForces env
              (self.parameters.getD contact.firstBody.toNat Parameters.default)
              (self.parameters.getD contact.secondBody.toNat Parameters.default) contact
              bodyForces)
          else (.ok (), self2, bodyForces) := by
  have g1 := getParameters_grows self contact.firstBody
  have hq1 := getParameters_of_valid self _ h1.1 h1.2
  have hq2 := getParameters_of_valid (getParameters self contact.firstBody).2 _ h2.1
    (by rw [g1.1]; exact h2.2)
  have g2 := getParameters_grows (getParameters self contact.firstBody).2 contact.secondBody
  rw [g1.getD_eq] at hq2
  refine ⟨(getParameters (getParameters self contact.firstBody).2 contact.secondBody).2,
    g1.trans g2, ?_⟩
  have hq1' : getParameters self contact.firstBody
      = (.ok (self.parameters.getD contact.firstBody.toNat Parameters.default),
          (getParameters self contact.firstBody).2) := by
    rw [hq1]
  have hq2' : getParameters (getParameters self contact.firstBody).2 contact.secondBody
      = (.ok (self.parameters.getD contact.secondBody.toNat Parameters.default),
          (getParameters (getParameters self contact.firstBody).2 contact.secondBody).2) := by
    rw [hq2]
  exact iteration_of_ok env self _ _ bodyForces contact _ _ hq1' hq2'

theorem contribution_of_grows [AddMonoid S] (w : Int → Vec3 R → Vec3 R → S)
    (env : Collaborators R S) {a b : HuntCrossleyForceImpl R} (hab : Grows a b)
    (contact : Contact R) :
    calcForce.contribution w env b contact = calcForce.contribution w env a contact := by
  unfold calcForce.contribution
  rw [hab.getD_eq, hab.getD_eq]

theorem iteration_sink_additive [AddMonoid S] (w : Int → Vec3 R → Vec3 R → S)
    (env : Collaborators R S) (hsink : AdditiveSink env w) (self : HuntCrossleyForceImpl R)
    (bodyForces : S) (contact : Contact R)
    (h1 : 0 ≤ contact.firstBody ∧ contact.firstBody < self.numBodies)
    (h2 : 0 ≤ contact.secondBody ∧ contact.secondBody < self.numBodies) :
    ∃ self2, Grows self self2 ∧
      calcForce.iteration env self bodyForces contact
        = (.ok (), self2, bodyForces + calcForce.contribution w env self contact) := by
  obtain ⟨self2, g, hit⟩ := iteration_of_valid env self bodyForces contact h1 h2
  refine ⟨self2, g, ?_⟩
  rw [hit]
  unfold calcForce.contribution
  simp only
  split_ifs with hf
  · unfold calcForce.applyForces
    rw [hsink, hsink, add_assoc]
  · rw [add_zero]

theorem calcForce_sink_additive [AddMonoid S] (w : Int → Vec3 R → Vec3 R → S)
    (env : Collaborators R S) (hsink : AdditiveSink env w) (self0 : HuntCrossleyForceImpl R)
    (contacts : List (Contact R)) :
    ∀ (self : HuntCrossleyForceImpl R) (bodyForces : S), Grows self0 self →
      (∀ contact ∈ contacts, (0 ≤ contact.firstBody ∧ contact.firstBody < self0.numBodies)
        ∧ (0 ≤ contact.secondBody ∧ contact.secondBody < self0.numBodies)) →
      (calcForce env self bodyForces contacts).2.2
        = bodyForces + (contacts.map (calcForce.contribution w env self0)).sum := by
  induction contacts with
  | nil =>
    intro self bodyForces _ _
    simp [calcForce]
  | cons contact rest ih =>
    intro self bodyForces g hv
    have hc := hv contact (List.mem_cons_self _ _)
    obtain ⟨self2, g2, hit⟩ := iteration_sink_additive w env hsink self bodyForces contact
      (by rw [g.1]; exact hc.1) (by rw [g.1]; exact hc.2)
    rw [calcForce, hit]
    simp only
    rw [ih self2 _ (g.trans g2) (fun c hcm => hv c (List.mem_cons_of_mem _ hcm)),
      contribution_of_grows w env g, List.map_cons, List.sum_cons, add_assoc]

theorem calcForce_append (env : Collaborators R S) (xs ys : List (Contact R)) :
    ∀ (self self1 : HuntCrossleyForceImpl R) (bodyForces bodyForces1 : S),
      calcForce env self bodyForces xs = (.ok (), self1, bodyForces1) →
      calcForce env self bodyForces (xs ++ ys) = calcForce env self1 bodyForces1 ys := by
  induction xs with
  | nil =>
    intro self self1 bodyForces bodyForces1 h
    rw [calcForce] at h
    simp only [Prod.mk.injEq, true_and] at h
    rw [List.nil_append, h.1, h.2]
  | cons contact rest ih =>
    intro self self1 bodyForces bodyForces1 h
    rw [calcForce] at h
    rw [List.cons_append, calcForce]
    rcases hq : calcForce.iteration env self bodyForces contact with ⟨r, selfm, bodyForcesm⟩
    rw [hq] at h
    cases r with
    | error e => simp at h
    | ok u => exact ih selfm self1 bodyForcesm bodyForces1 h

/-- C14: `calcForce` accumulates over the contact list.  With an additive force sink and
valid body indices, the sink after `calcForce` is the initial sink plus the sum of the
contributions of the contacts of the list; for two contacts both contributions are added, also
when they touch the same body.  The result on `xs ++ ys` is the result of `calcForce` on `ys`
started from the model state and the sink that `calcForce` on `xs` returned. -/
theorem calcForce_accumulates [AddMonoid S] (w : Int → Vec3 R → Vec3 R → S)
    (env : Collaborators R S) (hsink : AdditiveSink env w) (self : HuntCrossleyForceImpl R)
    (bodyForces : S) :
    (∀ contacts : List (Contact R),
        (∀ contact ∈ contacts, (0 ≤ contact.firstBody ∧ contact.firstBody < self.numBodies)
          ∧ (0 ≤ contact.secondBody ∧ contact.secondBody < self.numBodies)) →
        (calcForce env self bodyForces contacts).1 = .ok ()
          ∧ (calcForce env self bodyForces contacts).2.2
            = bodyForces + (contacts.map (calcForce.contribution w env self)).sum)
      ∧ (∀ (xs ys : List (Contact R)) (self1 : HuntCrossleyForceImpl R) (bodyForces1 : S),
          calcForce env self bodyForces xs = (.ok (), self1, bodyForces1) →
          calcForce env self bodyForces (xs ++ ys) = calcForce env self1 bodyForces1 ys)
      ∧ (∀ contact1 contact2 : Contact R,
          (∀ contact ∈ [contact1, contact2],
            (0 ≤ contact.firstBody ∧ contact.firstBody < self.numBodies)
              ∧ (0 ≤ contact.secondBody ∧ contact.secondBody < self.numBodies)) →
          (calcForce env self bodyForces [contact1, contact2]).2.2
            = bodyForces + calcForce.contribution w env self contact1
              + calcForce.contribution w env self contact2) := by
  refine ⟨?_, ?_, ?_⟩
  · intro contacts hv
    exact ⟨calcForce_ok env contacts self bodyForces hv,
      calcForce_sink_additive w env hsink self contacts self bodyForces (Grows.refl self) hv⟩
  · intro xs ys self1 bodyForces1 h
    exact calcForce_append env xs ys self self1 bodyForces bodyForces1 h
  · intro contact1 contact2 hv
    rw [calcForce_sink_additive w env hsink self [contact1, contact2] self bodyForces
      (Grows.refl self) hv]
    simp [add_assoc]

theorem Examples.accumulating_additive : AdditiveSink Examples.accumulating Examples.weight := by
  intro body station force sink
  funext i
  by_cases h : i = body
  · simp [Examples.accumulating, Examples.weight, h]
  · simp [Examples.accumulating, Examples.weight, h]

/-- C14 on two equal contacts between bodies `0` and `1` of parameters `(2, 1)`, each with
`f = 10/3`: starting from the zero sink, the entry of body `0` is `(0, 0, -20/3)` and the entry
of body `1` is `(0, 0, 20/3)`. -/
theorem calcForce_accumulates_witness :
    (calcForce Examples.accumulating Examples.model 0
        [Examples.approaching, Examples.approaching]).2.2 0 = (0, 0, -20 / 3)
      ∧ (calcForce Examples.accumulating Examples.model 0
        [Examples.approaching, Examples.approaching]).2.2 1 = (0, 0, 20 / 3) := by
  have h := (calcForce_accumulates Examples.weight Examples.accumulating
    Examples.accumulating_additive Examples.model 0).2.2 Examples.approaching
    Examples.approaching (by simp [Examples.approaching, Examples.model])
  rw [h]
  constructor <;>
  norm_num [calcForce.contribution, calcForce.f, calcForce.fH, calcForce.c, calcForce.v,
    calcForce.k, calcForce.s1, calcForce.s2, calcForce.curvature, calcForce.station1,
    calcForce.station2, calcForce.location, Vec3.dot, Vec3.sub, Vec3.add, Vec3.scale,
    Examples.accumulating, Examples.weight, Examples.approaching, Examples.model]

end HuntCrossleyForceImpl

end SimTK

/-! ## Length of the storage -/

namespace SimTK

namespace HuntCrossleyForceImpl

variable {R S : Type} [LinearOrderedField R]

theorem maxSlots_append (xs ys : List Int) :
    maxSlots (xs ++ ys) = max (maxSlots xs) (maxSlots ys) := by
  induction xs with
  | nil => simp [maxSlots]
  | cons i rest ih =>
    rw [List.cons_append]
    simp only [maxSlots]
    rw [ih, max_assoc]

theorem maxSlots_le (n : Int) (xs : List Int) (h : ∀ i ∈ xs, 0 ≤ i ∧ i < n) :
    maxSlots xs ≤ n.toNat := by
  induction xs with
  | nil => simp [maxSlots]
  | cons i rest ih =>
    have hi := h i (List.mem_cons_self _ _)
    have hr := ih (fun j hj => h j (List.mem_cons_of_mem _ hj))
    simp only [maxSlots]
    omega

theorem getParameters_length (self : HuntCrossleyForceImpl R) (i : Int)
    (h0 : 0 ≤ i) (h1 : i < self.numBodies) :
    (getParameters self i).2.parameters.length = max self.parameters.length (i.toNat + 1) := by
  rw [getParameters_of_valid self i h0 h1]
  simp only [List.length_append, List.length_replicate]
  omega

theorem updParameters_length (self : HuntCrossleyForceImpl R) (i : Int)
    (h0 : 0 ≤ i) (h1 : i < self.numBodies) :
    (updParameters self i).2.parameters.length = max self.parameters.length (i.toNat + 1) := by
  rw [updParameters_of_valid self i h0 h1]
  simp only [List.length_append, List.length_replicate]
  omega

theorem setBodyParameters_length (self : HuntCrossleyForceImpl R) (i : Int) (s d : R)
    (h0 : 0 ≤ i) (h1 : i < self.numBodies) :
    (setBodyParameters self i s d).2.parameters.length
      = max self.parameters.length (i.toNat + 1) := by
  rw [setBodyParameters_of_valid self i s d h0 h1]
  simp only [List.length_set, List.length_append, List.length_replicate]
  omega

theorem setBodyParameters_numBodies (self : HuntCrossleyForceImpl R) (i : Int) (s d : R) :
    (setBodyParameters self i s d).2.numBodies = self.numBodies := by
  by_cases h : 0 ≤ i ∧ i < self.numBodies
  · rw [setBodyParameters_of_valid self i s d h.1 h.2]
  · rw [setBodyParameters_of_invalid self i s d (by omega)]

theorem iteration_length (env : Collaborators R S) (self : HuntCrossleyForceImpl R)
    (bodyForces : S) (contact : Contact R)
    (h1 : 0 ≤ contact.firstBody ∧ contact.firstBody < self.numBodies)
    (h2 : 0 ≤ contact.secondBody ∧ contact.secondBody < self.numBodies) :
    (calcForce.iteration env self bodyForces contact).1 = .ok ()
      ∧ (calcForce.iteration env self bodyForces contact).2.1.numBodies = self.numBodies
      ∧ (calcForce.iteration env self bodyForces contact).2.1.parameters.length
        = max self.parameters.length
            (max (contact.firstBody.toNat + 1) (contact.secondBody.toNat + 1)) := by
  have g1 := getParameters_grows self contact.firstBody
  have hb : contact.secondBody < (getParameters self contact.firstBody).2.numBodies := by
    rw [g1.1]; exact h2.2
  have hq1 := getParameters_of_valid self _ h1.1 h1.2
  have hq2 := getParameters_of_valid (getParameters self contact.firstBody).2 _ h2.1 hb
  have l1 := getParameters_length self _ h1.1 h1.2
  have l2 := getParameters_length (getParameters self contact.firstBody).2 _ h2.1 hb
  have hq1' : getParameters self contact.firstBody
      = (.ok (self.parameters.getD contact.firstBody.toNat Parameters.default),
          (getParameters self contact.firstBody).2) := by
    rw [hq1]
  have hq2' : getParameters (getParameters self contact.firstBody).2 contact.secondBody
      = (.ok ((getParameters self contact.firstBody).2.parameters.getD
            contact.secondBody.toNat Parameters.default),
          (getParameters (getParameters self contact.firstBody).2 contact.secondBody).2) := by
    rw [hq2]
  have hit := iteration_of_ok env self _ _ bodyForces contact _ _ hq1' hq2'
  have hstate : (calcForce.iteration env self bodyForces contact).2.1
      = (getParameters (getParameters self contact.firstBody).2 contact.secondBody).2 := by
    rw [hit]
    split_ifs <;> rfl
  refine ⟨iteration_ok env self bodyForces contact h1 h2, ?_, ?_⟩
  · exact (iteration_grows env self bodyForces contact).1
  · rw [hstate, l2, l1, max_assoc]

theorem calcForce_length (env : Collaborators R S) (contacts : List (Contact R)) :
    ∀ (self : HuntCrossleyForceImpl R) (bodyForces : S),
      (∀ i ∈ contactBodies contacts, 0 ≤ i ∧ i < self.numBodies) →
      (calcForce env self bodyForces contacts).2.1.parameters.length
        = max self.parameters.length (maxSlots (contactBodies contacts)) := by
  induction contacts with
  | nil =>
    intro self bodyForces _
    simp [calcForce, contactBodies, maxSlots]
  | cons contact rest ih =>
    intro self bodyForces hv
    have h1 := hv contact.firstBody (by simp [contactBodies])
    have h2 := hv contact.secondBody (by simp [contactBodies])
    obtain ⟨hok, hn, hl⟩ := iteration_length env self bodyForces contact h1 h2
    rw [calcForce]
    rcases hq : calcForce.iteration env self bodyForces contact with ⟨r, self1, bodyForces1⟩
    rw [hq] at hok hn hl
    simp only at hok hn hl
    subst hok
    simp only
    rw [ih self1 bodyForces1 (fun i hi => by
      rw [hn]; exact hv i (by simp [contactBodies, hi])), hl]
    simp only [contactBodies, maxSlots, max_assoc]

theorem Call.run_length (env : Collaborators R S) (self : HuntCrossleyForceImpl R)
    (bodyForces : S) (call : Call R) (hv : ∀ i ∈ call.accessed, 0 ≤ i ∧ i < self.numBodies) :
    (call.run env self bodyForces).1.numBodies = self.numBodies
      ∧ (call.run env self bodyForces).1.parameters.length
        = max self.parameters.length (maxSlots call.accessed) := by
  cases call with
  | setBodyParameters j s d =>
    have hj := hv j (by simp [Call.accessed])
    exact ⟨setBodyParameters_numBodies self j s d, by
      simp only [Call.run, Call.accessed, maxSlots]
      rw [setBodyParameters_length self j s d hj.1 hj.2]
      simp⟩
  | getParameters j =>
    have hj := hv j (by simp [Call.accessed])
    exact ⟨(getParameters_grows self j).1, by
      simp only [Call.run, Call.accessed, maxSlots]
      rw [getParameters_length self j hj.1 hj.2]
      simp⟩
  | updParameters j =>
    have hj := hv j (by simp [Call.accessed])
    exact ⟨(updParameters_grows self j).1, by
      simp only [Call.run, Call.accessed, maxSlots]
      rw [updParameters_length self j hj.1 hj.2]
      simp⟩
  | calcForce contacts =>
    exact ⟨(calcForce_grows env contacts self bodyForces).1,
      calcForce_length env contacts self bodyForces hv⟩

theorem runCalls_length (env : Collaborators R S) (calls : List (Call R)) :
    ∀ (self : HuntCrossleyForceImpl R) (bodyForces : S),
      (∀ i ∈ accessedBy calls, 0 ≤ i ∧ i < self.numBodies) →
      (runCalls env self bodyForces calls).1.parameters.length
        = max self.parameters.length (maxSlots (accessedBy calls)) := by
  induction calls with
  | nil =>
    intro self bodyForces _
    simp [runCalls, accessedBy, maxSlots]
  | cons call rest ih =>
    intro self bodyForces hv
    obtain ⟨hn, hl⟩ := Call.run_length env self bodyForces call
      (fun i hi => hv i (by simp [accessedBy, hi]))
    rw [runCalls, ih _ _ (fun i hi => by rw [hn]; exact hv i (by simp [accessedBy, hi])), hl]
    simp only [accessedBy, maxSlots_append, max_assoc]

theorem runCalls_append (env : Collaborators R S) (pre post : List (Call R)) :
    ∀ (self : HuntCrossleyForceImpl R) (bodyForces : S),
      runCalls env self bodyForces (pre ++ post)
        = runCalls env (runCalls env self bodyForces pre).1
            (runCalls env self bodyForces pre).2 post := by
  induction pre with
  | nil => intro self bodyForces; rfl
  | cons call rest ih =>
    intro self bodyForces
    rw [List.cons_append, runCalls, runCalls, ih]

theorem accessedBy_append {T : Type} (pre post : List (Call T)) :
    accessedBy (pre ++ post) = accessedBy pre ++ accessedBy post := by
  induction pre with
  | nil => rfl
  | cons call rest ih =>
    rw [List.cons_append]
    simp only [accessedBy]
    rw [ih, List.append_assoc]

/-- C19: storage invariant.  From a newly constructed model, after any sequence of
`setBodyParameters`, `getParameters`, `updParameters` and `calcForce` calls whose body indices
are all valid, the length of the stored collection is the maximum of `index + 1` over the body
indices accessed (`0` when there is none), it does not exceed the number of bodies, and it is
at least the length after any initial part of the sequence. -/
theorem storage_length_invariant (env : Collaborators R S) (numBodies : Int) (bodyForces : S)
    (calls : List (Call R)) (hv : ∀ i ∈ accessedBy calls, 0 ≤ i ∧ i < numBodies) :
    (runCalls env (new numBodies) bodyForces calls).1.parameters.length
        = maxSlots (accessedBy calls)
      ∧ (runCalls env (new numBodies) bodyForces calls).1.parameters.length ≤ numBodies.toNat
      ∧ ∀ pre post : List (Call R), calls = pre ++ post →
          (runCalls env (new numBodies) bodyForces pre).1.parameters.length
              = maxSlots (accessedBy pre)
            ∧ (runCalls env (new numBodies) bodyForces pre).1.parameters.length
              ≤ (runCalls env (new numBodies) bodyForces calls).1.parameters.length := by
  have hlen : ∀ cs : List (Call R), (∀ i ∈ accessedBy cs, 0 ≤ i ∧ i < numBodies) →
      (runCalls env (new numBodies) bodyForces cs).1.parameters.length
        = maxSlots (accessedBy cs) := by
    intro cs hcs
    rw [runCalls_length env cs (new numBodies) bodyForces hcs]
    simp [new]
  refine ⟨hlen calls hv, ?_, ?_⟩
  · rw [hlen calls hv]
    exact maxSlots_le numBodies _ hv
  · intro pre post hsplit
    subst hsplit
    have hpre : ∀ i ∈ accessedBy pre, 0 ≤ i ∧ i < numBodies := by
      intro i hi
      exact hv i (by rw [accessedBy_append]; exact List.mem_append_left _ hi)
    refine ⟨hlen pre hpre, ?_⟩
    rw [hlen pre hpre, hlen _ hv, accessedBy_append, maxSlots_append]
    exact le_max_left _ _

/-- C19 on a newly constructed model of three bodies, for the calls that set index `2`, read
index `0` and run `calcForce` on a contact between bodies `0` and `2`: the storage has length
`3`. -/
theorem storage_length_invariant_witness :
    (runCalls Examples.env (new 3) [] Examples.calls).1.parameters.length = 3
      ∧ (runCalls Examples.env (new 3) [] Examples.calls).1.parameters.length
          ≤ (3 : Int).toNat := by
  have h := storage_length_invariant Examples.env 3 [] Examples.calls
    (by simp [accessedBy, Call.accessed, contactBodies, Examples.calls, Examples.reaching])
  refine ⟨?_, h.2.1⟩
  rw [h.1]
  simp [accessedBy, Call.accessed, contactBodies, maxSlots, Examples.calls, Examples.reaching]

end HuntCrossleyForceImpl

end SimTK

/-! ## Shapes: cloning -/

namespace SimTK

namespace ContactGeometryImpl

variable {R : Type}

theorem getRadius_of_object (process : Process R) (this : Nat) (object : ContactGeometryImpl R)
    (r : R) (h : process.objects[this]? = some object) (hd : object.derived = .SphereImpl r) :
    SphereImpl.getRadius process this = some r := by
  obtain ⟨myHandle, type, typeIndex, derived⟩ := object
  simp only at hd
  subst hd
  unfold SphereImpl.getRadius
  rw [h]

theorem object_of_getRadius (process : Process R) (this : Nat) (r : R)
    (h : SphereImpl.getRadius process this = some r) :
    ∃ object, process.objects[this]? = some object ∧ object.derived = .SphereImpl r := by
  unfold SphereImpl.getRadius at h
  rcases hq : process.objects[this]? with _ | ⟨myHandle, type, typeIndex, derived⟩
  · rw [hq] at h
    simp at h
  · rw [hq] at h
    cases derived with
    | HalfSpaceImpl => simp at h
    | SphereImpl radius =>
      simp only [Option.some.injEq] at h
      subst h
      exact ⟨_, rfl, rfl⟩

theorem setRadius_of_object (process : Process R) (this : Nat) (object : ContactGeometryImpl R)
    (r r1 : R) (h : process.objects[this]? = some object)
    (hd : object.derived = .SphereImpl r) :
    SphereImpl.setRadius process this r1
      = some { process with
          objects := process.objects.set this { object with derived := .SphereImpl r1 } } := by
  obtain ⟨myHandle, type, typeIndex, derived⟩ := object
  simp only at hd
  subst hd
  unfold SphereImpl.setRadius
  rw [h]

theorem clone_of_object (process : Process R) (this : Nat) (object : ContactGeometryImpl R)
    (h : process.objects[this]? = some object) :
    clone process this
      = some (process.objects.length,
          ⟨(getIndexForType process.typeRegistry (typeName object.derived)).2,
            process.objects ++ [⟨none, typeName object.derived,
              (getIndexForType process.typeRegistry (typeName object.derived)).1,
              object.derived⟩]⟩) := by
  obtain ⟨myHandle, type, typeIndex, derived⟩ := object
  unfold clone
  rw [h]
  cases derived with
  | HalfSpaceImpl => rfl
  | SphereImpl radius => rfl

/-- C11: cloning a sphere of radius `r` gives a new object, at a pointer other than the
source, that is a sphere of radius `r`.  After `setRadius(r')` on the clone the source still
has radius `r`, and after `setRadius(r')` on the source the clone still has radius `r`.
Cloning a half-space gives a half-space. -/
theorem clone_independent (process : Process R) (this : Nat) :
    (∀ r : R, SphereImpl.getRadius process this = some r →
        ∃ (copy : Nat) (process1 : Process R),
          clone process this = some (copy, process1)
            ∧ copy ≠ this
            ∧ SphereImpl.getRadius process1 copy = some r
            ∧ SphereImpl.getRadius process1 this = some r
            ∧ (∀ r1 : R, ∃ process2 : Process R,
                SphereImpl.setRadius process1 copy r1 = some process2
                  ∧ SphereImpl.getRadius process2 this = some r
                  ∧ SphereImpl.getRadius process2 copy = some r1)
            ∧ (∀ r1 : R, ∃ process2 : Process R,
                SphereImpl.setRadius process1 this r1 = some process2
                  ∧ SphereImpl.getRadius process2 copy = some r
                  ∧ SphereImpl.getRadius process2 this = some r1))
      ∧ (isHalfSpace process this →
          ∃ (copy : Nat) (process1 : Process R),
            clone process this = some (copy, process1)
              ∧ copy ≠ this
              ∧ isHalfSpace process1 copy
              ∧ isHalfSpace process1 this) := by
  constructor
  · intro r hr
    obtain ⟨object, hobj, hd⟩ := object_of_getRadius process this r hr
    have hlt : this < process.objects.length := by
      by_contra hcon
      rw [List.getElem?_eq_none (Nat.le_of_not_lt hcon)] at hobj
      simp at hobj
    have hne : process.objects.length ≠ this := by omega
    have hclone := clone_of_object process this object hobj
    generalize hreg : (getIndexForType process.typeRegistry (typeName object.derived)).2
      = registry1 at hclone
    generalize hfresh : (⟨none, typeName object.derived,
      (getIndexForType process.typeRegistry (typeName object.derived)).1, object.derived⟩ :
        ContactGeometryImpl R) = fresh at hclone
    have hfd : fresh.derived = .SphereImpl r := by rw [← hfresh]; exact hd
    have hat : (process.objects ++ [fresh])[process.objects.length]? = some fresh := by simp
    have hthis : (process.objects ++ [fresh])[this]? = some object := by
      rw [List.getElem?_append_left hlt, hobj]
    refine ⟨_, _, hclone, hne,
      getRadius_of_object ⟨registry1, process.objects ++ [fresh]⟩ _ fresh r hat hfd,
      getRadius_of_object ⟨registry1, process.objects ++ [fresh]⟩ _ object r hthis hd, ?_, ?_⟩
    · intro r1
      refine ⟨_, setRadius_of_object ⟨registry1, process.objects ++ [fresh]⟩ _ fresh r r1
        hat hfd, ?_, ?_⟩
      · apply getRadius_of_object _ this object r _ hd
        simp only
        rw [List.getElem?_set_ne hne, hthis]
      · apply getRadius_of_object _ process.objects.length
          { fresh with derived := .SphereImpl r1 } r1 _ rfl
        simp only
        rw [List.getElem?_set_self (by simp)]
    · intro r1
      refine ⟨_, setRadius_of_object ⟨registry1, process.objects ++ [fresh]⟩ _ object r r1
        hthis hd, ?_, ?_⟩
      · apply getRadius_of_object _ process.objects.length fresh r _ hfd
        simp only
        rw [List.getElem?_set_ne (Ne.symm hne), hat]
      · apply getRadius_of_object _ this { object with derived := .SphereImpl r1 } r1 _ rfl
        simp only
        rw [List.getElem?_set_self (by simp; omega)]
  · intro hh
    unfold isHalfSpace at hh
    rcases hobj : process.objects[this]? with _ | object
    · rw [hobj] at hh
      simp at hh
    · rw [hobj] at hh
      simp only [Option.map_some', Option.some.injEq] at hh
      have hlt : this < process.objects.length := by
        by_contra hcon
        rw [List.getElem?_eq_none (Nat.le_of_not_lt hcon)] at hobj
        simp at hobj
      refine ⟨_, _, clone_of_object process this object hobj, by omega, ?_, ?_⟩
      · unfold isHalfSpace
        simp [hh]
      · unfold isHalfSpace
        simp only
        rw [List.getElem?_append_left hlt, hobj]
        simp [hh]

/-- C11 on a process that holds a half-space at pointer `0` and a sphere of radius `2` at
pointer `1`: the clone of the sphere is at pointer `2` with radius `2`, setting its radius to
`5` leaves the source at `2`, and the clone of the half-space is a half-space. -/
theorem clone_independent_witness :
    (∃ process1 : Process ℚ, clone Examples.shapes 1 = some (2, process1)
        ∧ SphereImpl.getRadius process1 2 = some 2
        ∧ ∃ process2 : Process ℚ, SphereImpl.setRadius process1 2 5 = some process2
            ∧ SphereImpl.getRadius process2 1 = some 2
            ∧ SphereImpl.getRadius process2 2 = some 5)
      ∧ ∃ (copy : Nat) (process1 : Process ℚ),
          clone Examples.shapes 0 = some (copy, process1) ∧ isHalfSpace process1 copy := by
  constructor
  · obtain ⟨copy, process1, hc, _, hr, _, hset, _⟩ :=
      (clone_independent Examples.shapes 1).1 2 rfl
    have hcopy : copy = 2 := by
      have h2 : clone Examples.shapes 1 = some (2, (SphereImpl.new Examples.shapes 2).2) := rfl
      rw [h2] at hc
      simp only [Option.some.injEq, Prod.mk.injEq] at hc
      exact hc.1.symm
    subst hcopy
    obtain ⟨process2, hs, h1, h2⟩ := hset 5
    exact ⟨process1, hc, hr, process2, hs, h1, h2⟩
  · obtain ⟨copy, process1, hc, _, hh, _⟩ := (clone_independent Examples.shapes 0).2 rfl
    exact ⟨copy, process1, hc, hh⟩

end ContactGeometryImpl

end SimTK

/-! ## Shapes: type name and type index -/

namespace SimTK

namespace ContactGeometryImpl

variable {R : Type}

theorem getIndexForType_mem (registry : List String) (name : String) :
    name ∈ (getIndexForType registry name).2 := by
  unfold getIndexForType
  split_ifs with h
  · exact h
  · simp

theorem getIndexForType_index (registry : List String) (name : String) :
    (getIndexForType registry name).1
      = (((getIndexForType registry name).2.indexOf name : Nat) : Int) := by
  unfold getIndexForType
  split_ifs with h
  · rfl
  · simp only
    rw [List.indexOf_append_of_not_mem h]
    simp

theorem getIndexForType_keeps (registry : List String) (name other : String)
    (h : other ∈ registry) :
    other ∈ (getIndexForType registry name).2
      ∧ (getIndexForType registry name).2.indexOf other = registry.indexOf other := by
  unfold getIndexForType
  split_ifs with hn
  · exact ⟨h, rfl⟩
  · exact ⟨List.mem_append_left _ h, List.indexOf_append_of_mem h⟩

theorem getIndexForType_of_mem (registry : List String) (name : String) (h : name ∈ registry) :
    getIndexForType registry name = (((registry.indexOf name : Nat) : Int), registry) := by
  unfold getIndexForType
  rw [if_pos h]

theorem getIndexForType_repeat (registry : List String) (name : String) :
    getIndexForType (getIndexForType registry name).2 name
      = ((getIndexForType registry name).1, (getIndexForType registry name).2) := by
  rw [getIndexForType_of_mem _ name (getIndexForType_mem registry name),
    ← getIndexForType_index]

theorem getIndexForType_distinct (registry : List String) (a b : String) (hab : a ≠ b) :
    (getIndexForType registry a).1
      ≠ (getIndexForType (getIndexForType registry a).2 b).1 := by
  have hma := getIndexForType_mem registry a
  have hmb := getIndexForType_mem (getIndexForType registry a).2 b
  have hka := getIndexForType_keeps (getIndexForType registry a).2 b a hma
  rw [getIndexForType_index registry a, getIndexForType_index _ b, ← hka.2]
  intro h
  exact hab ((List.indexOf_inj hka.1 hmb).mp (by exact_mod_cast h))

theorem wellFormed_allocate (process : Process R) (derived : ContactGeometry.Derived R)
    (h : WellFormed process) :
    WellFormed (allocate process (construct process.typeRegistry (typeName derived) derived)).2
      := by
  intro object hmem
  simp only [allocate, construct, List.mem_append, List.mem_singleton] at hmem
  rcases hmem with hmem | hmem
  · obtain ⟨h1, h2, h3⟩ := h object hmem
    have hk := getIndexForType_keeps process.typeRegistry (typeName derived) object.type h2
    exact ⟨h1, hk.1, by simp only [allocate, construct]; rw [hk.2]; exact h3⟩
  · subst hmem
    exact ⟨rfl, getIndexForType_mem _ _, getIndexForType_index _ _⟩

theorem wellFormed_clone (process : Process R) (this : Nat) (result : Nat × Process R)
    (h : WellFormed process) (hc : clone process this = some result) : WellFormed result.2 := by
  rcases hobj : process.objects[this]? with _ | object
  · unfold clone at hc
    rw [hobj] at hc
    simp at hc
  · rw [clone_of_object process this object hobj] at hc
    simp only [Option.some.injEq] at hc
    subst hc
    exact wellFormed_allocate process object.derived h

theorem wellFormed_setRadius (process process1 : Process R) (this : Nat) (r : R)
    (h : WellFormed process) (hs : SphereImpl.setRadius process this r = some process1) :
    WellFormed process1 := by
  rcases hobj : process.objects[this]? with _ | object
  · unfold SphereImpl.setRadius at hs
    rw [hobj] at hs
    simp at hs
  · obtain ⟨myHandle, type, typeIndex, derived⟩ := object
    cases derived with
    | HalfSpaceImpl =>
      unfold SphereImpl.setRadius at hs
      rw [hobj] at hs
      simp at hs
    | SphereImpl radius =>
      rw [setRadius_of_object process this _ radius r hobj rfl] at hs
      simp only [Option.some.injEq] at hs
      subst hs
      intro object hmem
      simp only at hmem
      rcases List.mem_or_eq_of_mem_set hmem with hm | hm
      · exact h object hm
      · subst hm
        obtain ⟨h1, h2, h3⟩ := h _ (List.getElem?_mem hobj)
        exact ⟨h1, h2, h3⟩

theorem wellFormed_run (process : Process R) (call : Call R) (h : WellFormed process) :
    WellFormed (call.run process) := by
  cases call with
  | newHalfSpace => exact wellFormed_allocate process .HalfSpaceImpl h
  | newSphere radius => exact wellFormed_allocate process (.SphereImpl radius) h
  | clone this =>
    simp only [Call.run]
    rcases hc : clone process this with _ | result
    · exact h
    · exact wellFormed_clone process this result h hc
  | setRadius this r =>
    simp only [Call.run]
    rcases hs : SphereImpl.setRadius process this r with _ | process1
    · exact h
    · exact wellFormed_setRadius process process1 this r h hs

theorem wellFormed_runCalls (calls : List (Call R)) :
    ∀ process : Process R, WellFormed process → WellFormed (runCalls process calls) := by
  induction calls with
  | nil => intro process h; exact h
  | cons call rest ih =>
    intro process h
    exact ih _ (wellFormed_run process call h)

/-- C12: `clone()` preserves identity.  In a process that created its shapes through the
constructors, `clone` and `setRadius`, the clone of any shape has the `getType()` and the
`getTypeIndex()` of its source; the type name is "halfspace" for a `HalfSpaceImpl` and
"sphere" for a `SphereImpl`.  A repeated `getIndexForType` of one name returns the same index
and leaves the registry as it is, and two distinct names get distinct indices. -/
theorem clone_preserves_type (calls : List (Call R)) (this : Nat)
    (object : ContactGeometryImpl R)
    (hobj : (runCalls Process.start calls).objects[this]? = some object) :
    (∃ (copy : Nat) (process1 : Process R),
        clone (runCalls Process.start calls) this = some (copy, process1)
          ∧ getType process1 copy = getType (runCalls Process.start calls) this
          ∧ getTypeIndex process1 copy = getTypeIndex (runCalls Process.start calls) this)
      ∧ (object.derived = .HalfSpaceImpl →
          getType (runCalls Process.start calls) this = some "halfspace")
      ∧ (∀ r : R, object.derived = .SphereImpl r →
          getType (runCalls Process.start calls) this = some "sphere")
      ∧ (∀ (registry : List String) (name : String),
          getIndexForType (getIndexForType registry name).2 name
            = ((getIndexForType registry name).1, (getIndexForType registry name).2))
      ∧ (∀ (registry : List String) (a b : String), a ≠ b →
          (getIndexForType registry a).1
            ≠ (getIndexForType (getIndexForType registry a).2 b).1) := by
  have hwf : WellFormed (runCalls (Process.start : Process R) calls) :=
    wellFormed_runCalls calls Process.start (by intro object hmem; simp [Process.start] at hmem)
  obtain ⟨h1, h2, h3⟩ := hwf object (List.getElem?_mem hobj)
  have htype : getType (runCalls Process.start calls) this = some (typeName object.derived) := by
    unfold getType
    rw [hobj, Option.map_some', h1]
  refine ⟨⟨_, _, clone_of_object _ this object hobj, ?_, ?_⟩, ?_, ?_,
    getIndexForType_repeat, getIndexForType_distinct⟩
  · rw [htype]
    unfold getType
    simp
  · unfold getTypeIndex
    rw [hobj]
    simp only [Option.map_some']
    rw [List.getElem?_append_right (le_refl _)]
    simp only [Nat.sub_self, List.getElem?_cons_zero, Option.map_some', Option.some.injEq]
    rw [← h1, getIndexForType_of_mem _ _ h2, h3]
  · intro hd
    rw [htype, hd]
    rfl
  · intro r hd
    rw [htype, hd]
    rfl

/-- C12 on a process that holds a half-space and a sphere: the clone of the sphere has type
name "sphere" and type index `1`, as its source has. -/
theorem clone_preserves_type_witness :
    (∃ (copy : Nat) (process1 : Process ℚ),
        clone Examples.shapes 1 = some (copy, process1)
          ∧ getType process1 copy = getType Examples.shapes 1
          ∧ getTypeIndex process1 copy = getTypeIndex Examples.shapes 1)
      ∧ getType Examples.shapes 1 = some "sphere"
      ∧ getTypeIndex Examples.shapes 1 = some 1 := by
  have h := clone_preserves_type [Call.newHalfSpace, Call.newSphere (2 : ℚ)] 1
    ⟨none, "sphere", 1, .SphereImpl 2⟩ rfl
  exact ⟨h.1, h.2.2.1 2 rfl, rfl⟩

end ContactGeometryImpl

end SimTK

/-! ## Growth of the storage during `calcForce` -/

namespace SimTK

namespace HuntCrossleyForceImpl

variable {R S : Type} [LinearOrderedField R]

/-- When no read of a second body resizes the vector, the storage grows to the largest index of
a first body. -/
theorem calcForce_length_of_keepsReferences (env : Collaborators R S)
    (contacts : List (Contact R)) :
    ∀ (self : HuntCrossleyForceImpl R) (bodyForces : S),
      (∀ contact ∈ contacts, (0 ≤ contact.firstBody ∧ contact.firstBody < self.numBodies)
        ∧ (0 ≤ contact.secondBody ∧ contact.secondBody < self.numBodies)) →
      calcForce.keepsReferences self.parameters.length contacts →
      (calcForce env self bodyForces contacts).2.1.parameters.length
        = max self.parameters.length
            (maxSlots (contacts.map (fun contact => contact.firstBody))) := by
  induction contacts with
  | nil =>
    intro self bodyForces _ _
    simp [calcForce, maxSlots]
  | cons contact rest ih =>
    intro self bodyForces hv hk
    have hc := hv contact (List.mem_cons_self _ _)
    obtain ⟨hok, hn, hl⟩ := iteration_length env self bodyForces contact hc.1 hc.2
    have hl1 : (calcForce.iteration env self bodyForces contact).2.1.parameters.length
        = max self.parameters.length (contact.firstBody.toNat + 1) := by
      rw [hl]
      have := hk.1
      omega
    rw [calcForce]
    rcases hq : calcForce.iteration env self bodyForces contact with ⟨r, self1, bodyForces1⟩
    rw [hq] at hok hn hl1
    simp only at hok hn hl1
    subst hok
    simp only
    rw [ih self1 bodyForces1
      (fun c hcm => by rw [hn]; exact hv c (List.mem_cons_of_mem _ hcm))
      (by rw [hl1]; exact hk.2), hl1]
    simp only [List.map_cons, maxSlots, max_assoc]

/-- C8 fails on a model of three bodies that stores one entry: `calcForce` on one contact
between bodies `2` and `0` returns, and leaves a stored collection of three entries where there
was one.  The read of body `2` resizes the vector before the reference `param1` is taken, and
the read of body `0` does not resize it. -/
theorem calcForce_grows_storage_counterexample :
    (calcForce Examples.env Examples.short [] [Examples.growing]).1 = .ok ()
      ∧ Examples.short.parameters = [⟨2, 1⟩]
      ∧ (calcForce Examples.env Examples.short [] [Examples.growing]).2.1.parameters
          = [⟨2, 1⟩, ⟨0, 0⟩, ⟨0, 0⟩]
      ∧ (calcForce Examples.env Examples.short [] [Examples.growing]).2.1.parameters
          ≠ Examples.short.parameters := by
  have h : calcForce Examples.env Examples.short [] [Examples.growing]
      = (.ok (), ⟨3, [⟨2, 1⟩, ⟨0, 0⟩, ⟨0, 0⟩]⟩, []) := by
    simp [calcForce, calcForce.iteration, getParameters, resize, vectorAt,
      Parameters.default, calcForce.f, calcForce.fH, calcForce.k, calcForce.s1,
      Examples.short, Examples.growing]
  rw [h]
  exact ⟨rfl, rfl, rfl, by simp [Examples.short]⟩

/-- C8, amended: on a contact list whose body indices are valid and in which no read of a
second body resizes the vector, `calcForce` returns and never changes a stored entry.  The
collection after the call is the collection before it followed by default entries, up to the
length `max(length before, largest index of a first body + 1)`; the number of bodies is the
same; `getParameters(j)` returns the same value for every valid `j` before and after; and when
every body index of the list is below the storage length the collection after the call is
identical to the one before. -/
theorem calcForce_appends_defaults_only (env : Collaborators R S)
    (self : HuntCrossleyForceImpl R) (bodyForces : S) (contacts : List (Contact R))
    (hvalid : ∀ contact ∈ contacts,
      (0 ≤ contact.firstBody ∧ contact.firstBody < self.numBodies)
        ∧ (0 ≤ contact.secondBody ∧ contact.secondBody < self.numBodies))
    (hkeeps : calcForce.keepsReferences self.parameters.length contacts) :
    (calcForce env self bodyForces contacts).1 = .ok ()
      ∧ (calcForce env self bodyForces contacts).2.1.numBodies = self.numBodies
      ∧ (∃ n : Nat, (calcForce env self bodyForces contacts).2.1.parameters
          = self.parameters ++ List.replicate n Parameters.default)
      ∧ (calcForce env self bodyForces contacts).2.1.parameters.length
          = max self.parameters.length
              (maxSlots (contacts.map (fun contact => contact.firstBody)))
      ∧ (∀ j : Int, 0 ≤ j → j < self.numBodies →
          (getParameters (calcForce env self bodyForces contacts).2.1 j).1
            = (getParameters self j).1)
      ∧ ((∀ contact ∈ contacts, contact.firstBody.toNat < self.parameters.length
            ∧ contact.secondBody.toNat < self.parameters.length) →
          (calcForce env self bodyForces contacts).2.1.parameters = self.parameters) := by
  have g := calcForce_grows env contacts self bodyForces
  refine ⟨calcForce_ok env contacts self bodyForces hvalid, g.1, g.2,
    calcForce_length_of_keepsReferences env contacts self bodyForces hvalid hkeeps, ?_, ?_⟩
  · intro j h0 h1
    exact g.getParameters_eq j h0 h1
  · intro hl
    rw [calcForce_stored env contacts self bodyForces hvalid hl]

/-- C8, amended, on a model of three bodies that stores one entry: a contact between bodies
`2` and `0` makes the storage grow to three entries at the read of body `2`, and indices `0`
and `2` read the same before and after. -/
theorem calcForce_appends_defaults_only_witness :
    (calcForce Examples.env Examples.short [] [Examples.growing]).1 = .ok ()
      ∧ (calcForce Examples.env Examples.short [] [Examples.growing]).2.1.parameters.length = 3
      ∧ (getParameters (calcForce Examples.env Examples.short [] [Examples.growing]).2.1 0).1
        = (getParameters Examples.short 0).1
      ∧ (getParameters (calcForce Examples.env Examples.short [] [Examples.growing]).2.1 2).1
        = (getParameters Examples.short 2).1 := by
  have h := calcForce_appends_defaults_only Examples.env Examples.short []
    [Examples.growing] (by simp [Examples.short, Examples.growing])
    (by simp [calcForce.keepsReferences, Examples.short, Examples.growing])
  refine ⟨h.1, ?_, h.2.2.2.2.1 0 (by decide) (by decide),
    h.2.2.2.2.1 2 (by decide) (by decide)⟩
  rw [h.2.2.2.1]
  simp [maxSlots, Examples.short, Examples.growing]

end HuntCrossleyForceImpl

end SimTK
